import Mathlib

/-!
Verification of the quality-control-service repository (Django REST app).

The embedding models the entity store (src/restapi/models.py), the nested
write reconcilers (src/restapi/serializers.py) and the request handlers
(src/restapi/views.py) as pure functions over an explicit `Store` value.

Conventions of the embedding:
* `created_at` timestamps are not modelled (no claim mentions them).
* Django's per-request `transaction.atomic` is modelled by running the
  reconciler in a "raw" semantics that threads the store through each
  `objects.create` call (so a raised `ValidationError` leaves a partial
  store behind, exactly like Django without a transaction) and then
  wrapping it in `atomic`, which discards the partial store and restores
  the original one whenever an error was raised.
* Row ids come from a single monotone counter `Store.nextId`; every
  `objects.create` allocates the current counter value and bumps it.
  Insertion order of rows in each table list is creation order.
* JSON content of a ParameterValue is modelled as a string-keyed map of
  strings, per the spec's "schema-less document field" note.
-/

namespace QualityControl

/-- Opaque JSON payload carried by a ParameterValue (`content = models.JSONField()`). -/
abbrev Content := List (String × String)

/-- Row of the `Clinic` model: `name = models.CharField(max_length=200)`. -/
structure Clinic where
  id : Nat
  name : String
deriving DecidableEq, Repr

/-- Row of the `Department` model: `name`, `is_active` (default True),
`clinic = ForeignKey(Clinic, on_delete=CASCADE)`. -/
structure Department where
  id : Nat
  clinic : Nat
  name : String
  is_active : Bool
deriving DecidableEq, Repr

/-- Row of the `Equipments` model: `equipment_name`,
`dep = ForeignKey(Department, on_delete=CASCADE)`, `is_active` (default True),
`is_deleted` (default False). -/
structure Equipments where
  id : Nat
  dep : Nat
  equipment_name : String
  is_active : Bool
  is_deleted : Bool
deriving DecidableEq, Repr

/-- Row of the `EquipmentDetails` model:
`equipment = ForeignKey(Equipments, on_delete=CASCADE)`, `equipment_num`,
`make`, `model`, `is_active` (default True). -/
structure EquipmentDetails where
  id : Nat
  equipment : Nat
  equipment_num : String
  make : String
  model : String
  is_active : Bool
deriving DecidableEq, Repr

/-- Row of the `Parameters` model:
`equipment = ForeignKey(Equipments, on_delete=CASCADE)`, `parameter_name`,
`is_active` (default True). -/
structure Parameters where
  id : Nat
  equipment : Nat
  parameter_name : String
  is_active : Bool
deriving DecidableEq, Repr

/-- Row of the `ParameterValues` model:
`parameter = ForeignKey(Parameters, on_delete=CASCADE, related_name="parameter_values")`,
`content = JSONField()`, `is_deleted` (default False). -/
structure ParameterValues where
  id : Nat
  parameter : Nat
  content : Content
  is_deleted : Bool
deriving DecidableEq, Repr

/-- The transactional relational store: one list per table, in insertion
order, plus the id counter used by every `objects.create`. -/
structure Store where
  nextId : Nat
  clinics : List Clinic
  departments : List Department
  equipments : List Equipments
  details : List EquipmentDetails
  parameters : List Parameters
  values : List ParameterValues
deriving DecidableEq, Repr

/-- `Clinic.objects.create(name=...)`. -/
def Store.insClinic (s : Store) (name : String) : Store :=
  { s with clinics := s.clinics ++ [⟨s.nextId, name⟩], nextId := s.nextId + 1 }

/-- `Department.objects.create(clinic=..., name=..., is_active=...)`. -/
def Store.insDepartment (s : Store) (cid : Nat) (name : String) (act : Bool) : Store :=
  { s with departments := s.departments ++ [⟨s.nextId, cid, name, act⟩],
           nextId := s.nextId + 1 }

/-- `Equipments.objects.create(dep=..., equipment_name=..., is_active=...)`;
`is_deleted` takes its model default `False`. -/
def Store.insEquipment (s : Store) (depId : Nat) (name : String) (act : Bool) : Store :=
  { s with equipments := s.equipments ++ [⟨s.nextId, depId, name, act, false⟩],
           nextId := s.nextId + 1 }

/-- `EquipmentDetails.objects.create(equipment=..., **equipment_detail)`. -/
def Store.insDetail (s : Store) (eid : Nat) (num mk mdl : String) (act : Bool) : Store :=
  { s with details := s.details ++ [⟨s.nextId, eid, num, mk, mdl, act⟩],
           nextId := s.nextId + 1 }

/-- `Parameters.objects.create(equipment=..., parameter_name=..., is_active=...)`. -/
def Store.insParameter (s : Store) (eid : Nat) (name : String) (act : Bool) : Store :=
  { s with parameters := s.parameters ++ [⟨s.nextId, eid, name, act⟩],
           nextId := s.nextId + 1 }

/-- `ParameterValues.objects.create(parameter=..., content=...)`;
`is_deleted` takes its model default `False`. -/
def Store.insValue (s : Store) (pid : Nat) (c : Content) : Store :=
  { s with values := s.values ++ [⟨s.nextId, pid, c, false⟩],
           nextId := s.nextId + 1 }

/-!  Validated payload shapes, one per write serializer.  A field that DRF
may leave out of `validated_data` (declared `required=False`, or readable
only in partial mode) is an `Option`; a list field read with
`.pop(key, [])` / `.get(key, [])` is a plain `List` (absent ≡ `[]`,
matching Python truthiness of `[]`). -/

/-- Entry of `ParameterValueSerializer`: optional `id` (ignored by every
write path) and the `content` value. -/
structure ValuePayload where
  id : Option Nat
  content : Content
deriving DecidableEq, Repr

/-- Entry of `EquipmentDetailSerializer`: `equipment_num`, `make`, `model`
required, `is_active` optional (model default True). -/
structure DetailPayload where
  equipment_num : String
  make : String
  model : String
  is_active : Option Bool
deriving DecidableEq, Repr

/-- Entry of `ParameterSerializer` as consumed by the create paths:
`parameter_name` is required there (`parameter_data["parameter_name"]`),
`id` is accepted but ignored, `format` is the write-only alias field. -/
structure ParamCreatePayload where
  id : Option Nat
  parameter_name : String
  is_active : Option Bool
  parameter_values : List ValuePayload
  format : Option Content
deriving DecidableEq, Repr

/-- Entry of `ParameterSerializer` as consumed by
`EquipmentSerializer.update`, which reads every key with `.get` (all
optional, covering partial mode); `parameter_name`, `is_active` and
`format` are never read by the update code. -/
structure ParamUpdateEntry where
  id : Option Nat
  parameter_name : Option String
  is_active : Option Bool
  parameter_values : List ValuePayload
  format : Option Content
deriving DecidableEq, Repr

/-- `EquipmentSerializer` validated data for create:
`equipment_name` required, `is_active` optional (model default True). -/
structure EquipmentCreatePayload where
  equipment_name : String
  is_active : Option Bool
  equipment_details : List DetailPayload
  parameters : List ParamCreatePayload
deriving DecidableEq, Repr

/-- `EquipmentSerializer` validated data for update: the update code reads
the scalars with `validated_data.get(..., current)`, so both are optional. -/
structure EquipmentUpdatePayload where
  equipment_name : Option String
  is_active : Option Bool
  equipment_details : List DetailPayload
  parameters : List ParamUpdateEntry
deriving DecidableEq, Repr

/-- `DepartmentSerializer` validated data nested in a clinic payload:
`name` required, `is_active` read with `.get('is_active', True)`. -/
structure DepartmentPayload where
  name : String
  is_active : Option Bool
  equipments : List EquipmentCreatePayload
deriving DecidableEq, Repr

/-- `ClinicSerializer` validated data: `name` required,
`department` read with `.pop('department', [])`. -/
structure ClinicPayload where
  name : String
  department : List DepartmentPayload
deriving DecidableEq, Repr

/-- The `serializers.ValidationError` payloads raised by the reconcilers
(serializers.py). Each carries one field-scoped detail. -/
inductive WErr where
  | paramValuesEmpty
  | paramIdRequired
  | paramNotFound (pid : Nat)
deriving DecidableEq, Repr

/-- The dictionary key of the field-scoped error detail. -/
def WErr.fieldKey : WErr → String
  | .paramValuesEmpty => "parameter_values"
  | .paramIdRequired => "parameter_id"
  | .paramNotFound _ => "parameter_id"

/-- The human-readable error message of the detail. -/
def WErr.message : WErr → String
  | .paramValuesEmpty => "Parameter values cannot be empty"
  | .paramIdRequired => "Parameter id is required for update"
  | .paramNotFound pid =>
      "Parameter with id " ++ toString pid ++ " not found for this equipment"

/-- The `for parameter_value in parameter_values_data:` loop shared by
create and update: one `ParameterValues.objects.create` per entry. -/
def createValues (pid : Nat) : List ValuePayload → Store → Store
  | [], s => s
  | v :: rest, s => createValues pid rest (s.insValue pid v.content)

/-- The `for equipment_detail in equipment_details_data:` loop shared by
create and update: one `EquipmentDetails.objects.create` per entry. -/
def createDetails (eid : Nat) : List DetailPayload → Store → Store
  | [], s => s
  | d :: rest, s =>
      createDetails eid rest
        (s.insDetail eid d.equipment_num d.make d.model (d.is_active.getD true))

/-- The `for parameter_data in parameters_data:` loop of
`EquipmentSerializer.create` (serializers.py:89-114): reject when both the
values list and the `format` alias are missing, convert `format` into a
single-element values list when the values are absent, then create the
Parameter row and its ParameterValue rows. -/
def createParameters (eid : Nat) : List ParamCreatePayload → Store → Store × Option WErr
  | [], s => (s, none)
  | p :: rest, s =>
    match p.parameter_values, p.format with
    | [], none => (s, some WErr.paramValuesEmpty)
    | [], some f =>
        let s1 := s.insParameter eid p.parameter_name (p.is_active.getD true)
        createParameters eid rest (createValues s.nextId [⟨none, f⟩] s1)
    | v :: vs, _ =>
        let s1 := s.insParameter eid p.parameter_name (p.is_active.getD true)
        createParameters eid rest (createValues s.nextId (v :: vs) s1)

/-- `EquipmentSerializer.create` (raw, pre-transaction): create the
Equipments row bound to the view-supplied department, then the details,
then the parameters. -/
def equipmentCreateRaw (depId : Nat) (p : EquipmentCreatePayload) (s : Store) :
    Store × Option WErr :=
  let eid := s.nextId
  let s1 := s.insEquipment depId p.equipment_name (p.is_active.getD true)
  let s2 := createDetails eid p.equipment_details s1
  createParameters eid p.parameters s2

/-- `Parameters.objects.get(id=param_id, equipment=instance)`. -/
def lookupParam (s : Store) (pid eid : Nat) : Option Parameters :=
  s.parameters.find? (fun r => r.id == pid && r.equipment == eid)

/-- The `for parameter_data in parameters_data:` loop of
`EquipmentSerializer.update` (serializers.py:142-176).  Python's
`if not param_id:` is truthy-false both for a missing id and for id 0, so
both raise the required-id error; then the ownership lookup, then the
non-empty check on `parameter_values`, then the append of value rows. -/
def appendParamValues (eid : Nat) : List ParamUpdateEntry → Store → Store × Option WErr
  | [], s => (s, none)
  | en :: rest, s =>
    match en.id with
    | none => (s, some WErr.paramIdRequired)
    | some pid =>
      if pid = 0 then (s, some WErr.paramIdRequired)
      else
        match lookupParam s pid eid with
        | none => (s, some (WErr.paramNotFound pid))
        | some pr =>
          match en.parameter_values with
          | [] => (s, some WErr.paramValuesEmpty)
          | v :: vs => appendParamValues eid rest (createValues pr.id (v :: vs) s)

/-- The in-place scalar save of `EquipmentSerializer.update`
(serializers.py:126-132): `equipment_name` and `is_active` are taken from
the payload when present and kept otherwise, then `instance.save()`. -/
def setEquipScalars (eid : Nat) (name : Option String) (act : Option Bool)
    (s : Store) : Store :=
  { s with equipments := s.equipments.map (fun e =>
      if e.id == eid then
        { e with equipment_name := name.getD e.equipment_name,
                 is_active := act.getD e.is_active }
      else e) }

/-- `EquipmentSerializer.update` (raw, pre-transaction): scalar save, then
append details, then the parameter-values loop. -/
def equipmentUpdateRaw (eid : Nat) (p : EquipmentUpdatePayload) (s : Store) :
    Store × Option WErr :=
  let s1 := setEquipScalars eid p.equipment_name p.is_active s
  let s2 := createDetails eid p.equipment_details s1
  appendParamValues eid p.parameters s2

/-- The `for equipment_data in equipments_data:` loop shared by the clinic
create/update paths and `DepartmentSerializer.create`: one
`EquipmentSerializer().create(...)` per entry, aborting on the first error. -/
def createEquipments (depId : Nat) : List EquipmentCreatePayload → Store → Store × Option WErr
  | [], s => (s, none)
  | e :: rest, s =>
    match equipmentCreateRaw depId e s with
    | (s1, none) => createEquipments depId rest s1
    | (s1, some err) => (s1, some err)

/-- The `for department_data in departments_data:` loop of
`ClinicSerializer.create`/`update`: create the Department row bound to
the clinic, then its equipments. -/
def createDepartments (cid : Nat) : List DepartmentPayload → Store → Store × Option WErr
  | [], s => (s, none)
  | d :: rest, s =>
    let depId := s.nextId
    let s1 := s.insDepartment cid d.name (d.is_active.getD true)
    match createEquipments depId d.equipments s1 with
    | (s2, none) => createDepartments cid rest s2
    | (s2, some err) => (s2, some err)

/-- `ClinicSerializer.create` (raw): create the Clinic row, then populate
its departments. -/
def clinicCreateRaw (p : ClinicPayload) (s : Store) : Store × Option WErr :=
  let cid := s.nextId
  createDepartments cid p.department (s.insClinic p.name)

/-- Boolean membership in a list of ids (`value in list` over row ids). -/
def memNat (n : Nat) : List Nat → Bool
  | [] => false
  | m :: rest => m == n || memNat n rest

/-- Ids of the departments owned by clinic `cid` — the rows matched by
`Department.objects.filter(clinic=instance)`. -/
def deadDepIds (s : Store) (cid : Nat) : List Nat :=
  (s.departments.filter (fun d => d.clinic == cid)).map (fun d => d.id)

/-- Ids of the equipments cascade-deleted with those departments. -/
def deadEqIds (s : Store) (cid : Nat) : List Nat :=
  (s.equipments.filter (fun e => memNat e.dep (deadDepIds s cid))).map (fun e => e.id)

/-- Ids of the parameters cascade-deleted with those equipments. -/
def deadParamIds (s : Store) (cid : Nat) : List Nat :=
  (s.parameters.filter (fun p => memNat p.equipment (deadEqIds s cid))).map (fun p => p.id)

/-- `Department.objects.filter(clinic=instance).delete()` with Django's
`on_delete=CASCADE` chain: the departments of the clinic go away together
with their equipments, equipment details, parameters and parameter values. -/
def deleteDepartmentsOfClinic (cid : Nat) (s : Store) : Store :=
  { s with
    departments := s.departments.filter (fun d => !(d.clinic == cid)),
    equipments := s.equipments.filter (fun e => !(memNat e.dep (deadDepIds s cid))),
    details := s.details.filter (fun d => !(memNat d.equipment (deadEqIds s cid))),
    parameters := s.parameters.filter (fun p => !(memNat p.equipment (deadEqIds s cid))),
    values := s.values.filter (fun v => !(memNat v.parameter (deadParamIds s cid))) }

/-- `ClinicSerializer.update` (raw, serializers.py:239-263): delete every
department of the clinic (cascading), save the clinic name, then recreate
departments from the payload bound to the existing clinic id. -/
def clinicUpdateRaw (cid : Nat) (p : ClinicPayload) (s : Store) : Store × Option WErr :=
  let s1 := deleteDepartmentsOfClinic cid s
  let s2 := { s1 with clinics := s1.clinics.map (fun c =>
                if c.id == cid then { c with name := p.name } else c) }
  createDepartments cid p.department s2

/-- `@transaction.atomic`: if the body raised a validation error, every
row it created or deleted is rolled back and the caller observes the
original store; otherwise the mutated store commits. -/
def atomic (f : Store → Store × Option WErr) (s : Store) : Store × Option WErr :=
  match f s with
  | (s1, none) => (s1, none)
  | (_, some e) => (s, some e)

/-- Committed semantics of `EquipmentSerializer.create`. -/
def equipmentCreate (depId : Nat) (p : EquipmentCreatePayload) : Store → Store × Option WErr :=
  atomic (equipmentCreateRaw depId p)

/-- Committed semantics of `EquipmentSerializer.update`. -/
def equipmentUpdate (eid : Nat) (p : EquipmentUpdatePayload) : Store → Store × Option WErr :=
  atomic (equipmentUpdateRaw eid p)

/-- Committed semantics of `ClinicSerializer.create`. -/
def clinicCreate (p : ClinicPayload) : Store → Store × Option WErr :=
  atomic (clinicCreateRaw p)

/-- Committed semantics of `ClinicSerializer.update`. -/
def clinicUpdate (cid : Nat) (p : ClinicPayload) : Store → Store × Option WErr :=
  atomic (clinicUpdateRaw cid p)

/-!  Read projectors (the `*ReadSerializer` classes, serializers.py:269-317). -/

/-- Output row of `ParameterValueReadSerializer`: id, content, is_deleted
(no filter on `is_deleted` — soft-deleted values are rendered too). -/
structure ParameterValueRead where
  id : Nat
  content : Content
  is_deleted : Bool
deriving DecidableEq, Repr

/-- Output row of `ParameterReadSerializer`. -/
structure ParameterRead where
  id : Nat
  parameter_name : String
  is_active : Bool
  parameter_values : List ParameterValueRead
deriving DecidableEq, Repr

/-- Output row of `EquipmentDetailReadSerializer`. -/
structure EquipmentDetailRead where
  id : Nat
  equipment_num : String
  make : String
  model : String
  is_active : Bool
deriving DecidableEq, Repr

/-- Output row of `EquipmentReadSerializer` (fields: id, equipment_name,
equipment_details, parameters — no is_active/is_deleted). -/
structure EquipmentRead where
  id : Nat
  equipment_name : String
  equipment_details : List EquipmentDetailRead
  parameters : List ParameterRead
deriving DecidableEq, Repr

/-- Output row of `DepartmentReadSerializer`. -/
structure DepartmentRead where
  id : Nat
  name : String
  is_active : Bool
  equipments : List EquipmentRead
deriving DecidableEq, Repr

/-- Output row of `ClinicReadSerializer`. -/
structure ClinicRead where
  id : Nat
  name : String
  department : List DepartmentRead
deriving DecidableEq, Repr

/-- The `parameter_values` relation of a parameter, rendered by
`ParameterValueReadSerializer(many=True)` with no `is_deleted` filter. -/
def projectValues (s : Store) (pid : Nat) : List ParameterValueRead :=
  (s.values.filter (fun v => v.parameter == pid)).map
    (fun v => ⟨v.id, v.content, v.is_deleted⟩)

/-- `ParameterReadSerializer` on one Parameter row. -/
def projectParameter (s : Store) (pr : Parameters) : ParameterRead :=
  ⟨pr.id, pr.parameter_name, pr.is_active, projectValues s pr.id⟩

/-- `EquipmentReadSerializer` on one Equipments row: details via
`equipmentdetails_set`, parameters via `parameters_set`. -/
def projectEquipment (s : Store) (e : Equipments) : EquipmentRead :=
  ⟨e.id, e.equipment_name,
   (s.details.filter (fun d => d.equipment == e.id)).map
     (fun d => ⟨d.id, d.equipment_num, d.make, d.model, d.is_active⟩),
   (s.parameters.filter (fun p => p.equipment == e.id)).map (projectParameter s)⟩

/-- `DepartmentReadSerializer.get_equipments` (serializers.py:307-309):
`obj.equipments_set.filter(is_deleted=False)` — soft-deleted equipments
are hidden, `is_active` is not consulted. -/
def getEquipmentsOfDepartment (s : Store) (depId : Nat) : List EquipmentRead :=
  (s.equipments.filter (fun e => e.dep == depId && !e.is_deleted)).map
    (projectEquipment s)

/-- `DepartmentReadSerializer` on one Department row. -/
def projectDepartment (s : Store) (d : Department) : DepartmentRead :=
  ⟨d.id, d.name, d.is_active, getEquipmentsOfDepartment s d.id⟩

/-- `ClinicReadSerializer` on one Clinic row (`department_set`). -/
def projectClinic (s : Store) (c : Clinic) : ClinicRead :=
  ⟨c.id, c.name,
   (s.departments.filter (fun d => d.clinic == c.id)).map (projectDepartment s)⟩

/-!  Request handlers (views.py). -/

/-- The body the POST equipment view echoes back:
`EquipmentSerializer(equipment).data`.  The declared nested fields are
named `equipment_details` and `parameters`, but the model instance only
exposes the reverse accessors `equipmentdetails_set` and `parameters_set`,
so DRF's `Field.get_attribute` hits an `AttributeError` and — both fields
being `required=False` with no default — raises `SkipField`, which makes
`Serializer.to_representation` omit both keys from the output.  The two
`Option` fields are therefore always `none` on this code path; the list
types record what the keys would contain were they ever rendered. -/
structure EquipmentEchoW where
  id : Nat
  equipment_name : String
  is_active : Bool
  equipment_details : Option (List EquipmentDetails)
  parameters : Option (List Parameters)
deriving DecidableEq, Repr

/-- Render the write-shape echo of an equipment row (see `EquipmentEchoW`). -/
def equipmentWriteEcho (s : Store) (eid : Nat) : Option EquipmentEchoW :=
  match s.equipments.find? (fun e => e.id == eid) with
  | none => none
  | some e => some ⟨e.id, e.equipment_name, e.is_active, none, none⟩

/-- HTTP outcome of the equipment-create endpoint. -/
structure EquipResp where
  status : Nat
  body : Option EquipmentEchoW
deriving DecidableEq, Repr

/-- `DepartmentEquipmentCreateAPIView.post` (views.py:146-171): 404 when
the department id does not resolve, otherwise run the serializer create;
validation errors map to 400, success to 201 with the write-shape echo of
the freshly created equipment. -/
def postEquipmentView (depId : Nat) (p : EquipmentCreatePayload) (s : Store) :
    Store × EquipResp :=
  match s.departments.find? (fun d => d.id == depId) with
  | none => (s, ⟨404, none⟩)
  | some _ =>
    let newEid := s.nextId
    match equipmentCreate depId p s with
    | (s1, none) => (s1, ⟨201, equipmentWriteEcho s1 newEid⟩)
    | (_, some _) => (s, ⟨400, none⟩)

/-- `EquipmentInactiveAPIView.patch` (views.py:238-254):
`Equipments.objects.get(id=..., dep_id=...)` — no `is_deleted` filter —
then `is_active = False; save()`; 404 only when the lookup fails. -/
def equipmentInactiveView (depId eqId : Nat) (s : Store) : Store × Nat :=
  match s.equipments.find? (fun e => e.id == eqId && e.dep == depId) with
  | none => (s, 404)
  | some _ =>
    ({ s with equipments := s.equipments.map (fun e =>
        if e.id == eqId && e.dep == depId then { e with is_active := false } else e) },
     200)

/-- `EquipmentSoftDeleteAPIView.patch` (views.py:271-300):
`Equipments.objects.get(id=..., dep_id=..., is_deleted=False)` — an
absent or already soft-deleted equipment is a 404 — then
`is_deleted = True; is_active = False; save()`. -/
def equipmentSoftDeleteView (depId eqId : Nat) (s : Store) : Store × Nat :=
  match s.equipments.find? (fun e => e.id == eqId && e.dep == depId && !e.is_deleted) with
  | none => (s, 404)
  | some _ =>
    ({ s with equipments := s.equipments.map (fun e =>
        if e.id == eqId && e.dep == depId && !e.is_deleted then
          { e with is_deleted := true, is_active := false }
        else e) },
     200)

/-- `EquipmentSoftDeleteAPIView.delete` (views.py:303-304) just delegates
to the PATCH handler. -/
def equipmentSoftDeleteViaDelete (depId eqId : Nat) (s : Store) : Store × Nat :=
  equipmentSoftDeleteView depId eqId s

/-- Every mutating operation of the system, for store-wide invariants. -/
inductive Op where
  | clinicCreateOp (p : ClinicPayload)
  | clinicUpdateOp (cid : Nat) (p : ClinicPayload)
  | equipmentCreateOp (depId : Nat) (p : EquipmentCreatePayload)
  | equipmentUpdateOp (eid : Nat) (p : EquipmentUpdatePayload)
  | equipmentInactiveOp (depId eqId : Nat)
  | equipmentSoftDeleteOp (depId eqId : Nat)

/-- The store committed by one operation. -/
def applyOp : Op → Store → Store
  | .clinicCreateOp p, s => (clinicCreate p s).1
  | .clinicUpdateOp cid p, s => (clinicUpdate cid p s).1
  | .equipmentCreateOp depId p, s => (equipmentCreate depId p s).1
  | .equipmentUpdateOp eid p, s => (equipmentUpdate eid p s).1
  | .equipmentInactiveOp depId eqId, s => (equipmentInactiveView depId eqId s).1
  | .equipmentSoftDeleteOp depId eqId, s => (equipmentSoftDeleteView depId eqId s).1

/-- Number of ParameterValue rows attached to parameter `pid`. -/
def countValuesFor (s : Store) (pid : Nat) : Nat :=
  (s.values.filter (fun v => v.parameter == pid)).length

/-- An equipment-update payload appending exactly one value to parameter
`pid` (the shape of the append-only audit-trail test). -/
def oneValuePayload (pid : Nat) (v : ValuePayload) : EquipmentUpdatePayload :=
  ⟨none, none, [], [⟨some pid, none, none, [v], none⟩]⟩

/-- All row ids of the store sit below the id counter (true of every store
the system ever builds, since ids are allocated from the counter). -/
def idsBelowNext (s : Store) : Prop :=
  (∀ r ∈ s.clinics, r.id < s.nextId) ∧
  (∀ r ∈ s.departments, r.id < s.nextId) ∧
  (∀ r ∈ s.equipments, r.id < s.nextId) ∧
  (∀ r ∈ s.details, r.id < s.nextId) ∧
  (∀ r ∈ s.parameters, r.id < s.nextId) ∧
  (∀ r ∈ s.values, r.id < s.nextId)

instance (s : Store) : Decidable (idsBelowNext s) := by
  unfold idsBelowNext; infer_instance

/-- Foreign keys of value rows sit below the id counter. -/
def valueRefsBelowNext (s : Store) : Prop :=
  ∀ v ∈ s.values, v.parameter < s.nextId

instance (s : Store) : Decidable (valueRefsBelowNext s) := by
  unfold valueRefsBelowNext; infer_instance

/-!  Concrete fixtures used to exercise the theorems on closed inputs. -/

/-- A store holding nothing yet (counter starts at 1, like Django pks). -/
def emptyStore : Store := ⟨1, [], [], [], [], [], []⟩

/-- A parameter entry with neither values nor a `format` alias. -/
def badParamEntry : ParamCreatePayload := ⟨none, "Speed", none, [], none⟩

/-- An equipment create payload whose single parameter entry is malformed. -/
def badEquipmentPayload : EquipmentCreatePayload := ⟨"ECG", none, [], [badParamEntry]⟩

/-- A clinic payload with one department, one equipment, one malformed
parameter entry. -/
def badClinicPayload : ClinicPayload :=
  ⟨"Apollo", [⟨"Cardiology", none, [badEquipmentPayload]⟩]⟩

/-- A store holding a single Parameter row (id 1) owned by equipment 1. -/
def voltageStore : Store := ⟨2, [], [], [], [], [⟨1, 1, "Voltage", true⟩], []⟩

/-- An equipment update payload whose single entry references parameter 1
but carries an empty values list. -/
def emptyValuesUpdate : EquipmentUpdatePayload :=
  ⟨none, none, [], [⟨some 1, none, none, [], none⟩]⟩

/-- The `format`-alias parameter entry of the spec's MRI scenario. -/
def mriParamEntry : ParamCreatePayload := ⟨none, "Speed", none, [], some [("unit", "rpm")]⟩

/-- The MRI equipment payload of the spec's scenario: one parameter with a
`format` alias and no explicit values. -/
def mriPayload : EquipmentCreatePayload := ⟨"MRI", none, [], [mriParamEntry]⟩

/-- The store produced by creating `mriPayload` under department 5 on the
empty store: one equipment, one parameter, one value row. -/
def mriResultStore : Store :=
  ⟨4, [], [], [⟨1, 5, "MRI", true, false⟩], [], [⟨2, 1, "Speed", true⟩],
   [⟨3, 2, [("unit", "rpm")], false⟩]⟩

/-- A populated store: one clinic with a full subtree below it. -/
def c3Store : Store :=
  ⟨7, [⟨1, "Apollo"⟩], [⟨2, 1, "Radiology", true⟩], [⟨3, 2, "CT", true, false⟩],
   [⟨4, 3, "N1", "GE", "M", true⟩], [⟨5, 3, "Voltage", true⟩],
   [⟨6, 5, [("v", "1")], false⟩]⟩

/-- A clinic-update payload replacing the departments of `c3Store`. -/
def c3Payload : ClinicPayload := ⟨"Apollo2", [⟨"Cardiology", none, []⟩]⟩

/-- The store after updating clinic 1 of `c3Store` with `c3Payload`. -/
def c3Result : Store := ⟨8, [⟨1, "Apollo2"⟩], [⟨7, 1, "Cardiology", true⟩], [], [], [], []⟩

/-- A store with one live equipment (id 1) under department 2. -/
def delStore : Store := ⟨3, [], [], [⟨1, 2, "CT", true, false⟩], [], [], []⟩

/-- A store whose only equipment (id 1, department 2) is already
soft-deleted. -/
def delStoreDeleted : Store := ⟨3, [], [], [⟨1, 2, "CT", false, true⟩], [], [], []⟩

/-- A store exercising the read projection: under department 1 an
inactive-but-live equipment (id 2) and a soft-deleted one (id 3); the
parameter of equipment 2 owns one soft-deleted value. -/
def projStore : Store :=
  ⟨7, [], [⟨1, 9, "Radiology", true⟩],
   [⟨2, 1, "CT", false, false⟩, ⟨3, 1, "MR", true, true⟩],
   [], [⟨4, 2, "Voltage", true⟩], [⟨5, 4, [("a", "1")], true⟩]⟩

/-- A store with clinic 1 and an empty department 2, for the POST
equipment endpoint. -/
def c6Store : Store := ⟨3, [⟨1, "Clinic"⟩], [⟨2, 1, "Radiology", true⟩], [], [], [], []⟩

/-- The value rows `createValues pid` appends, ids starting at `n`. -/
def mkValues (pid : Nat) : Nat → List ValuePayload → List ParameterValues
  | _, [] => []
  | n, v :: rest => ⟨n, pid, v.content, false⟩ :: mkValues pid (n + 1) rest

/-- The detail rows `createDetails eid` appends, ids starting at `n`. -/
def mkDetails (eid : Nat) : Nat → List DetailPayload → List EquipmentDetails
  | _, [] => []
  | n, d :: rest =>
      ⟨n, eid, d.equipment_num, d.make, d.model, d.is_active.getD true⟩ ::
        mkDetails eid (n + 1) rest

/-- Growth of a store under the create-family loops: every table only
gains rows, all fresh (ids at or above the old counter), and every fresh
value row points at a fresh parameter. -/
structure Grows (s t : Store) : Prop where
  nextLe : s.nextId ≤ t.nextId
  clinics : ∃ l, t.clinics = s.clinics ++ l ∧ ∀ r ∈ l, s.nextId ≤ r.id
  departments : ∃ l, t.departments = s.departments ++ l ∧ ∀ r ∈ l, s.nextId ≤ r.id
  equipments : ∃ l, t.equipments = s.equipments ++ l ∧ ∀ r ∈ l, s.nextId ≤ r.id
  details : ∃ l, t.details = s.details ++ l ∧ ∀ r ∈ l, s.nextId ≤ r.id
  parameters : ∃ l, t.parameters = s.parameters ++ l ∧ ∀ r ∈ l, s.nextId ≤ r.id
  values : ∃ l, t.values = s.values ++ l ∧
    ∀ r ∈ l, s.nextId ≤ r.id ∧ s.nextId ≤ r.parameter

/-- The only validation the create-parameters loop performs, expressed on
the payload alone: the error raised at the first entry that carries
neither a non-empty `parameter_values` list nor a `format` alias. -/
def firstCreateErr : List ParamCreatePayload → Option WErr
  | [] => none
  | p :: rest =>
    match p.parameter_values, p.format with
    | [], none => some WErr.paramValuesEmpty
    | [], some _ => firstCreateErr rest
    | _ :: _, _ => firstCreateErr rest

/-- The validations of the update-parameters loop, expressed on the
parameter table and the payload alone: the error raised at the first
entry whose id is falsy (absent or 0), whose id does not resolve under
this equipment, or whose values list is empty. -/
def firstParamErr (params : List Parameters) (eid : Nat) : List ParamUpdateEntry → Option WErr
  | [] => none
  | en :: rest =>
    match en.id with
    | none => some WErr.paramIdRequired
    | some pid =>
      if pid = 0 then some WErr.paramIdRequired
      else
        match params.find? (fun r => r.id == pid && r.equipment == eid) with
        | none => some (WErr.paramNotFound pid)
        | some _ =>
          match en.parameter_values with
          | [] => some WErr.paramValuesEmpty
          | _ :: _ => firstParamErr params eid rest

/-- An update-loop entry that passes all three validations. -/
def entryOk (params : List Parameters) (eid : Nat) (en : ParamUpdateEntry) : Bool :=
  match en.id with
  | none => false
  | some pid =>
      !(pid == 0) &&
      (params.find? (fun r => r.id == pid && r.equipment == eid)).isSome &&
      !en.parameter_values.isEmpty

/-!  Helper lemmas about the building blocks. -/

theorem createValues_spec (pid : Nat) (vs : List ValuePayload) (s : Store) :
    createValues pid vs s =
      { s with values := s.values ++ mkValues pid s.nextId vs,
               nextId := s.nextId + vs.length } := by
  induction vs generalizing s with
  | nil => simp [createValues, mkValues]
  | cons v rest ih =>
      rw [createValues, ih]
      simp [Store.insValue, mkValues, List.append_assoc]
      all_goals omega

theorem mem_mkValues (pid : Nat) (vs : List ValuePayload) :
    ∀ n, ∀ r ∈ mkValues pid n vs,
      r.parameter = pid ∧ n ≤ r.id ∧ ∃ v ∈ vs, r.content = v.content := by
  induction vs with
  | nil => intro n r hr; simp [mkValues] at hr
  | cons v rest ih =>
      intro n r hr
      rw [mkValues] at hr
      rcases List.mem_cons.mp hr with hr | hr
      · subst hr
        exact ⟨rfl, Nat.le_refl _, v, List.mem_cons_self v rest, rfl⟩
      · obtain ⟨h1, h2, w, hw, hc⟩ := ih (n + 1) r hr
        exact ⟨h1, Nat.le_of_succ_le h2, w, List.mem_cons_of_mem _ hw, hc⟩

theorem mkValues_map_content (pid n : Nat) (vs : List ValuePayload) :
    (mkValues pid n vs).map (fun r => r.content) = vs.map (fun v => v.content) := by
  induction vs generalizing n with
  | nil => rfl
  | cons v rest ih => simp [mkValues, ih]

theorem mkValues_length (pid n : Nat) (vs : List ValuePayload) :
    (mkValues pid n vs).length = vs.length := by
  induction vs generalizing n with
  | nil => rfl
  | cons v rest ih => simp [mkValues, ih]

theorem countValuesFor_createValues (pid : Nat) (vs : List ValuePayload) (s : Store) :
    countValuesFor (createValues pid vs s) pid = countValuesFor s pid + vs.length := by
  rw [createValues_spec]
  unfold countValuesFor
  simp only [List.filter_append, List.length_append]
  have hall : (mkValues pid s.nextId vs).filter (fun v => v.parameter == pid)
      = mkValues pid s.nextId vs := by
    apply List.filter_eq_self.mpr
    intro r hr
    have := (mem_mkValues pid vs s.nextId r hr).1
    simp [this]
  rw [hall, mkValues_length]

theorem createDetails_spec (eid : Nat) (ds : List DetailPayload) (s : Store) :
    createDetails eid ds s =
      { s with details := s.details ++ mkDetails eid s.nextId ds,
               nextId := s.nextId + ds.length } := by
  induction ds generalizing s with
  | nil => simp [createDetails, mkDetails]
  | cons d rest ih =>
      rw [createDetails, ih]
      simp [Store.insDetail, mkDetails, List.append_assoc]
      all_goals omega

theorem memNat_iff (n : Nat) (l : List Nat) : memNat n l = true ↔ n ∈ l := by
  induction l with
  | nil => simp [memNat]
  | cons m rest ih =>
      simp only [memNat, Bool.or_eq_true, beq_iff_eq, ih, List.mem_cons]
      constructor
      · rintro (h | h)
        · exact Or.inl h.symm
        · exact Or.inr h
      · rintro (h | h)
        · exact Or.inl h.symm
        · exact Or.inr h

theorem atomic_snd (f : Store → Store × Option WErr) (s : Store) :
    (atomic f s).2 = (f s).2 := by
  unfold atomic
  rcases hf : f s with ⟨s1, e⟩
  cases e <;> simp

theorem atomic_of_err (f : Store → Store × Option WErr) (s : Store) (e : WErr)
    (h : (f s).2 = some e) : atomic f s = (s, some e) := by
  unfold atomic
  rcases hf : f s with ⟨s1, e1⟩
  simp only [hf] at h
  subst h
  rfl

theorem atomic_of_ok (f : Store → Store × Option WErr) (s s1 : Store)
    (h : atomic f s = (s1, none)) : f s = (s1, none) := by
  unfold atomic at h
  rcases hf : f s with ⟨s2, e⟩
  rw [hf] at h
  cases e with
  | none =>
      simp only [Prod.mk.injEq] at h
      rw [h.1]
  | some e => simp at h

theorem atomic_err_unchanged (f : Store → Store × Option WErr) (s : Store)
    (h : (atomic f s).2 ≠ none) : (atomic f s).1 = s := by
  unfold atomic at h ⊢
  rcases hf : f s with ⟨s1, e⟩
  rw [hf] at h
  cases e with
  | none => simp at h
  | some e => rfl

theorem Grows.rfl (s : Store) : Grows s s := by
  refine ⟨Nat.le_refl _, ⟨[], by simp⟩, ⟨[], by simp⟩, ⟨[], by simp⟩,
    ⟨[], by simp⟩, ⟨[], by simp⟩, ⟨[], by simp⟩⟩

theorem Grows.trans {s t u : Store} (h1 : Grows s t) (h2 : Grows t u) : Grows s u := by
  obtain ⟨n1, ⟨c1, hc1, hc1f⟩, ⟨d1, hd1, hd1f⟩, ⟨e1, he1, he1f⟩, ⟨t1, ht1, ht1f⟩,
    ⟨p1, hp1, hp1f⟩, ⟨v1, hv1, hv1f⟩⟩ := h1
  obtain ⟨n2, ⟨c2, hc2, hc2f⟩, ⟨d2, hd2, hd2f⟩, ⟨e2, he2, he2f⟩, ⟨t2, ht2, ht2f⟩,
    ⟨p2, hp2, hp2f⟩, ⟨v2, hv2, hv2f⟩⟩ := h2
  refine ⟨Nat.le_trans n1 n2, ⟨c1 ++ c2, ?_, ?_⟩, ⟨d1 ++ d2, ?_, ?_⟩,
    ⟨e1 ++ e2, ?_, ?_⟩, ⟨t1 ++ t2, ?_, ?_⟩, ⟨p1 ++ p2, ?_, ?_⟩, ⟨v1 ++ v2, ?_, ?_⟩⟩
  · rw [hc2, hc1, List.append_assoc]
  · intro r hr
    rcases List.mem_append.mp hr with hr | hr
    · exact hc1f r hr
    · exact Nat.le_trans n1 (hc2f r hr)
  · rw [hd2, hd1, List.append_assoc]
  · intro r hr
    rcases List.mem_append.mp hr with hr | hr
    · exact hd1f r hr
    · exact Nat.le_trans n1 (hd2f r hr)
  · rw [he2, he1, List.append_assoc]
  · intro r hr
    rcases List.mem_append.mp hr with hr | hr
    · exact he1f r hr
    · exact Nat.le_trans n1 (he2f r hr)
  · rw [ht2, ht1, List.append_assoc]
  · intro r hr
    rcases List.mem_append.mp hr with hr | hr
    · exact ht1f r hr
    · exact Nat.le_trans n1 (ht2f r hr)
  · rw [hp2, hp1, List.append_assoc]
  · intro r hr
    rcases List.mem_append.mp hr with hr | hr
    · exact hp1f r hr
    · exact Nat.le_trans n1 (hp2f r hr)
  · rw [hv2, hv1, List.append_assoc]
  · intro r hr
    rcases List.mem_append.mp hr with hr | hr
    · exact hv1f r hr
    · exact ⟨Nat.le_trans n1 (hv2f r hr).1, Nat.le_trans n1 (hv2f r hr).2⟩

theorem grows_insClinic (s : Store) (name : String) : Grows s (s.insClinic name) := by
  refine ⟨Nat.le_succ _, ⟨[⟨s.nextId, name⟩], Eq.refl _, ?_⟩, ⟨[], by simp [Store.insClinic]⟩,
    ⟨[], by simp [Store.insClinic]⟩, ⟨[], by simp [Store.insClinic]⟩,
    ⟨[], by simp [Store.insClinic]⟩, ⟨[], by simp [Store.insClinic]⟩⟩
  intro r hr
  simp at hr
  simp [hr]

theorem grows_insDepartment (s : Store) (cid : Nat) (name : String) (act : Bool) :
    Grows s (s.insDepartment cid name act) := by
  refine ⟨Nat.le_succ _, ⟨[], by simp [Store.insDepartment]⟩,
    ⟨[⟨s.nextId, cid, name, act⟩], Eq.refl _, ?_⟩,
    ⟨[], by simp [Store.insDepartment]⟩, ⟨[], by simp [Store.insDepartment]⟩,
    ⟨[], by simp [Store.insDepartment]⟩, ⟨[], by simp [Store.insDepartment]⟩⟩
  intro r hr
  simp at hr
  simp [hr]

theorem grows_insEquipment (s : Store) (depId : Nat) (name : String) (act : Bool) :
    Grows s (s.insEquipment depId name act) := by
  refine ⟨Nat.le_succ _, ⟨[], by simp [Store.insEquipment]⟩,
    ⟨[], by simp [Store.insEquipment]⟩,
    ⟨[⟨s.nextId, depId, name, act, false⟩], Eq.refl _, ?_⟩,
    ⟨[], by simp [Store.insEquipment]⟩,
    ⟨[], by simp [Store.insEquipment]⟩, ⟨[], by simp [Store.insEquipment]⟩⟩
  intro r hr
  simp at hr
  simp [hr]

theorem grows_insParameter (s : Store) (eid : Nat) (name : String) (act : Bool) :
    Grows s (s.insParameter eid name act) := by
  refine ⟨Nat.le_succ _, ⟨[], by simp [Store.insParameter]⟩,
    ⟨[], by simp [Store.insParameter]⟩, ⟨[], by simp [Store.insParameter]⟩,
    ⟨[], by simp [Store.insParameter]⟩,
    ⟨[⟨s.nextId, eid, name, act⟩], Eq.refl _, ?_⟩,
    ⟨[], by simp [Store.insParameter]⟩⟩
  intro r hr
  simp at hr
  simp [hr]

theorem mem_mkDetails (eid : Nat) (ds : List DetailPayload) :
    ∀ n, ∀ r ∈ mkDetails eid n ds, n ≤ r.id := by
  induction ds with
  | nil => intro n r hr; simp [mkDetails] at hr
  | cons d rest ih =>
      intro n r hr
      rw [mkDetails] at hr
      rcases List.mem_cons.mp hr with hr | hr
      · simp [hr]
      · exact Nat.le_of_succ_le (ih (n + 1) r hr)

theorem grows_createDetails (eid : Nat) (ds : List DetailPayload) (s : Store) :
    Grows s (createDetails eid ds s) := by
  rw [createDetails_spec]
  exact ⟨Nat.le_add_right _ _, ⟨[], by simp⟩, ⟨[], by simp⟩, ⟨[], by simp⟩,
    ⟨mkDetails eid s.nextId ds, Eq.refl _, mem_mkDetails eid ds s.nextId⟩,
    ⟨[], by simp⟩, ⟨[], by simp⟩⟩

theorem grows_createValues (pid : Nat) (vs : List ValuePayload) (s : Store)
    (hpid : s.nextId ≤ pid) : Grows s (createValues pid vs s) := by
  rw [createValues_spec]
  refine ⟨Nat.le_add_right _ _, ⟨[], by simp⟩, ⟨[], by simp⟩, ⟨[], by simp⟩,
    ⟨[], by simp⟩, ⟨[], by simp⟩, ⟨mkValues pid s.nextId vs, Eq.refl _, ?_⟩⟩
  intro r hr
  obtain ⟨hp, hid, -⟩ := mem_mkValues pid vs s.nextId r hr
  exact ⟨hid, hp ▸ hpid⟩

/-- One successful iteration of the create-parameters loop (a fresh
Parameter row plus its value rows) grows the store. -/
theorem grows_param_step (eid : Nat) (name : String) (act : Bool)
    (vs : List ValuePayload) (s : Store) :
    Grows s (createValues s.nextId vs (s.insParameter eid name act)) := by
  rw [createValues_spec]
  refine ⟨?_, ⟨[], by simp [Store.insParameter]⟩, ⟨[], by simp [Store.insParameter]⟩,
    ⟨[], by simp [Store.insParameter]⟩, ⟨[], by simp [Store.insParameter]⟩,
    ⟨[⟨s.nextId, eid, name, act⟩], by simp [Store.insParameter], ?_⟩,
    ⟨mkValues s.nextId (s.insParameter eid name act).nextId vs,
      by simp [Store.insParameter], ?_⟩⟩
  · simp [Store.insParameter]
    omega
  · intro r hr
    simp at hr
    simp [hr]
  · intro r hr
    obtain ⟨hp, hid, -⟩ := mem_mkValues _ vs _ r hr
    simp [Store.insParameter] at hid
    exact ⟨by omega, by simp [hp]⟩

theorem grows_createParameters (eid : Nat) (ps : List ParamCreatePayload) (s : Store) :
    Grows s (createParameters eid ps s).1 := by
  induction ps generalizing s with
  | nil => exact Grows.rfl s
  | cons p rest ih =>
      rcases hv : p.parameter_values with _ | ⟨v, vs⟩ <;>
        rcases hf : p.format with _ | f <;>
        simp only [createParameters, hv, hf]
      · exact Grows.rfl s
      · exact (grows_param_step eid p.parameter_name (p.is_active.getD true)
          [⟨none, f⟩] s).trans (ih _)
      · exact (grows_param_step eid p.parameter_name (p.is_active.getD true)
          (v :: vs) s).trans (ih _)
      · exact (grows_param_step eid p.parameter_name (p.is_active.getD true)
          (v :: vs) s).trans (ih _)

theorem grows_equipmentCreateRaw (depId : Nat) (p : EquipmentCreatePayload) (s : Store) :
    Grows s (equipmentCreateRaw depId p s).1 := by
  unfold equipmentCreateRaw
  exact ((grows_insEquipment s depId p.equipment_name
    (p.is_active.getD true)).trans (grows_createDetails ..)).trans
    (grows_createParameters ..)

theorem grows_createEquipments (depId : Nat) (es : List EquipmentCreatePayload) (s : Store) :
    Grows s (createEquipments depId es s).1 := by
  induction es generalizing s with
  | nil => exact Grows.rfl s
  | cons e rest ih =>
      rw [createEquipments]
      rcases hr : equipmentCreateRaw depId e s with ⟨s1, err⟩
      have hg : Grows s s1 := by
        have := grows_equipmentCreateRaw depId e s
        rw [hr] at this
        exact this
      cases err with
      | none => exact hg.trans (ih s1)
      | some err => exact hg

theorem grows_createDepartments (cid : Nat) (ds : List DepartmentPayload) (s : Store) :
    Grows s (createDepartments cid ds s).1 := by
  induction ds generalizing s with
  | nil => exact Grows.rfl s
  | cons d rest ih =>
      rw [createDepartments]
      have hg1 : Grows s (s.insDepartment cid d.name (d.is_active.getD true)) :=
        grows_insDepartment ..
      rcases hr : createEquipments s.nextId d.equipments
          (s.insDepartment cid d.name (d.is_active.getD true)) with ⟨s2, err⟩
      have hg2 : Grows (s.insDepartment cid d.name (d.is_active.getD true)) s2 := by
        have := grows_createEquipments s.nextId d.equipments
          (s.insDepartment cid d.name (d.is_active.getD true))
        rw [hr] at this
        exact this
      cases err with
      | none => exact (hg1.trans hg2).trans (ih s2)
      | some err => exact hg1.trans hg2

theorem createValues_frame (pid : Nat) (vs : List ValuePayload) (s : Store) :
    (createValues pid vs s).clinics = s.clinics ∧
    (createValues pid vs s).departments = s.departments ∧
    (createValues pid vs s).equipments = s.equipments ∧
    (createValues pid vs s).details = s.details ∧
    (createValues pid vs s).parameters = s.parameters := by
  rw [createValues_spec]
  exact ⟨rfl, rfl, rfl, rfl, rfl⟩

theorem createDetails_frame (eid : Nat) (ds : List DetailPayload) (s : Store) :
    (createDetails eid ds s).clinics = s.clinics ∧
    (createDetails eid ds s).departments = s.departments ∧
    (createDetails eid ds s).equipments = s.equipments ∧
    (createDetails eid ds s).parameters = s.parameters ∧
    (createDetails eid ds s).values = s.values := by
  rw [createDetails_spec]
  exact ⟨rfl, rfl, rfl, rfl, rfl⟩

theorem createParameters_frame (eid : Nat) (ps : List ParamCreatePayload) (s : Store) :
    (createParameters eid ps s).1.clinics = s.clinics ∧
    (createParameters eid ps s).1.departments = s.departments ∧
    (createParameters eid ps s).1.equipments = s.equipments ∧
    (createParameters eid ps s).1.details = s.details := by
  induction ps generalizing s with
  | nil => exact ⟨rfl, rfl, rfl, rfl⟩
  | cons p rest ih =>
      rcases hv : p.parameter_values with _ | ⟨v, vs⟩ <;>
        rcases hf : p.format with _ | f <;>
        simp only [createParameters, hv, hf]
      · simp
      · obtain ⟨h1, h2, h3, h4⟩ := ih (createValues s.nextId [⟨none, f⟩]
          (s.insParameter eid p.parameter_name (p.is_active.getD true)))
        rw [h1, h2, h3, h4, createValues_spec]
        simp [Store.insParameter]
      · obtain ⟨h1, h2, h3, h4⟩ := ih (createValues s.nextId (v :: vs)
          (s.insParameter eid p.parameter_name (p.is_active.getD true)))
        rw [h1, h2, h3, h4, createValues_spec]
        simp [Store.insParameter]
      · obtain ⟨h1, h2, h3, h4⟩ := ih (createValues s.nextId (v :: vs)
          (s.insParameter eid p.parameter_name (p.is_active.getD true)))
        rw [h1, h2, h3, h4, createValues_spec]
        simp [Store.insParameter]

theorem createParameters_err (eid : Nat) (ps : List ParamCreatePayload) (s : Store) :
    (createParameters eid ps s).2 = firstCreateErr ps := by
  induction ps generalizing s with
  | nil => rfl
  | cons p rest ih =>
      rcases hv : p.parameter_values with _ | ⟨v, vs⟩ <;>
        rcases hf : p.format with _ | f <;>
        simp only [createParameters, firstCreateErr, hv, hf]
      · exact ih _
      · exact ih _
      · exact ih _

theorem firstCreateErr_range (ps : List ParamCreatePayload) (e : WErr)
    (h : firstCreateErr ps = some e) : e = WErr.paramValuesEmpty := by
  induction ps with
  | nil => simp [firstCreateErr] at h
  | cons p rest ih =>
      rcases hv : p.parameter_values with _ | ⟨v, vs⟩ <;>
        rcases hf : p.format with _ | f <;>
        simp only [firstCreateErr, hv, hf] at h
      · exact (Option.some.injEq .. ▸ h).symm
      · exact ih h
      · exact ih h
      · exact ih h

theorem firstCreateErr_of_mem (ps : List ParamCreatePayload) (en : ParamCreatePayload)
    (hmem : en ∈ ps) (h1 : en.parameter_values = []) (h2 : en.format = none) :
    firstCreateErr ps = some WErr.paramValuesEmpty := by
  induction ps with
  | nil => simp at hmem
  | cons p rest ih =>
      rcases List.mem_cons.mp hmem with hp | hp
      · subst hp
        simp only [firstCreateErr, h1, h2]
      · rcases hv : p.parameter_values with _ | ⟨v, vs⟩ <;>
          rcases hf : p.format with _ | f <;>
          simp only [firstCreateErr, hv, hf]
        all_goals first
          | rfl
          | exact ih hp

theorem firstCreateErr_skip (pre rest : List ParamCreatePayload)
    (h : ∀ en ∈ pre, en.parameter_values ≠ [] ∨ en.format ≠ none) :
    firstCreateErr (pre ++ rest) = firstCreateErr rest := by
  induction pre with
  | nil => rfl
  | cons p pre1 ih =>
      have hp := h p (List.mem_cons_self p pre1)
      have hih := ih (fun en hen => h en (List.mem_cons_of_mem p hen))
      rcases hv : p.parameter_values with _ | ⟨v, vs⟩ <;>
        rcases hf : p.format with _ | f <;>
        simp only [List.cons_append, firstCreateErr, hv, hf]
      · rcases hp with hp | hp
        · exact absurd hv hp
        · exact absurd hf hp
      · exact hih
      · exact hih
      · exact hih

theorem equipmentCreateRaw_err (depId : Nat) (p : EquipmentCreatePayload) (s : Store) :
    (equipmentCreateRaw depId p s).2 = firstCreateErr p.parameters := by
  unfold equipmentCreateRaw
  exact createParameters_err ..

theorem createEquipments_err_range (depId : Nat) (es : List EquipmentCreatePayload)
    (s : Store) (e : WErr) (h : (createEquipments depId es s).2 = some e) :
    e = WErr.paramValuesEmpty := by
  induction es generalizing s with
  | nil => simp [createEquipments] at h
  | cons e0 rest ih =>
      rw [createEquipments] at h
      rcases hr : equipmentCreateRaw depId e0 s with ⟨s1, err⟩
      rw [hr] at h
      cases err with
      | none => exact ih s1 h
      | some err =>
          simp at h
          have := equipmentCreateRaw_err depId e0 s
          rw [hr] at this
          exact h ▸ firstCreateErr_range _ _ this.symm ▸ (firstCreateErr_range _ err this.symm) ▸ rfl

theorem createDepartments_err_range (cid : Nat) (ds : List DepartmentPayload)
    (s : Store) (e : WErr) (h : (createDepartments cid ds s).2 = some e) :
    e = WErr.paramValuesEmpty := by
  induction ds generalizing s with
  | nil => simp [createDepartments] at h
  | cons d rest ih =>
      rw [createDepartments] at h
      rcases hr : createEquipments s.nextId d.equipments
          (s.insDepartment cid d.name (d.is_active.getD true)) with ⟨s2, err⟩
      rw [hr] at h
      cases err with
      | none => exact ih s2 h
      | some err =>
          simp at h
          have := createEquipments_err_range _ _ _ err (by rw [hr])
          rw [← h]
          exact this

theorem lookupParam_some {s : Store} {pid eid : Nat} {pr : Parameters}
    (h : lookupParam s pid eid = some pr) :
    pr ∈ s.parameters ∧ pr.id = pid ∧ pr.equipment = eid := by
  unfold lookupParam at h
  have hm := List.mem_of_find?_eq_some h
  have hp := List.find?_some h
  simp only [Bool.and_eq_true, beq_iff_eq] at hp
  exact ⟨hm, hp.1, hp.2⟩

theorem appendParamValues_err (eid : Nat) (entries : List ParamUpdateEntry) (s : Store) :
    (appendParamValues eid entries s).2 = firstParamErr s.parameters eid entries := by
  induction entries generalizing s with
  | nil => rfl
  | cons en rest ih =>
      rcases hid : en.id with _ | pid
      · simp only [appendParamValues, firstParamErr, hid]
      · simp only [appendParamValues, firstParamErr, hid]
        by_cases h0 : pid = 0
        · simp only [h0, if_pos]
        · simp only [if_neg h0]
          rcases hl : lookupParam s pid eid with _ | pr
          · unfold lookupParam at hl
            simp only [hl]
          · have hl1 := hl
            unfold lookupParam at hl1
            simp only [hl1]
            rcases hv : en.parameter_values with _ | ⟨v, vs⟩
            · rfl
            · rw [ih]
              have := (createValues_frame pr.id (v :: vs) s).2.2.2.2
              rw [this]

theorem firstParamErr_skip (params : List Parameters) (eid : Nat)
    (pre rest : List ParamUpdateEntry)
    (h : ∀ en ∈ pre, entryOk params eid en = true) :
    firstParamErr params eid (pre ++ rest) = firstParamErr params eid rest := by
  induction pre with
  | nil => rfl
  | cons en pre1 ih =>
      have hok := h en (List.mem_cons_self en pre1)
      have hih := ih (fun x hx => h x (List.mem_cons_of_mem en hx))
      unfold entryOk at hok
      rcases hid : en.id with _ | pid
      · rw [hid] at hok; simp at hok
      · rw [hid] at hok
        have hok2 : (!(pid == 0) &&
            (params.find? (fun r => r.id == pid && r.equipment == eid)).isSome &&
            !en.parameter_values.isEmpty) = true := hok
        have h0 : ¬ pid = 0 := by
          intro hpe
          subst hpe
          simp at hok2
        rcases hfind : params.find? (fun r => r.id == pid && r.equipment == eid) with _ | pr
        · rw [hfind] at hok2; simp at hok2
        · rcases hv : en.parameter_values with _ | ⟨v, vs⟩
          · rw [hv] at hok2; simp at hok2
          · simp only [List.cons_append, firstParamErr, hid, if_neg h0, hfind, hv]
            exact hih

theorem appendParamValues_frame (eid : Nat) (entries : List ParamUpdateEntry) (s : Store) :
    (appendParamValues eid entries s).1.clinics = s.clinics ∧
    (appendParamValues eid entries s).1.departments = s.departments ∧
    (appendParamValues eid entries s).1.equipments = s.equipments ∧
    (appendParamValues eid entries s).1.details = s.details ∧
    (appendParamValues eid entries s).1.parameters = s.parameters := by
  induction entries generalizing s with
  | nil => exact ⟨rfl, rfl, rfl, rfl, rfl⟩
  | cons en rest ih =>
      rcases hid : en.id with _ | pid
      · simp only [appendParamValues, hid]
        simp
      · simp only [appendParamValues, hid]
        by_cases h0 : pid = 0
        · simp only [if_pos h0]
          simp
        · simp only [if_neg h0]
          rcases hl : lookupParam s pid eid with _ | pr
          · exact ⟨rfl, rfl, rfl, rfl, rfl⟩
          · rcases hv : en.parameter_values with _ | ⟨v, vs⟩
            · exact ⟨rfl, rfl, rfl, rfl, rfl⟩
            · obtain ⟨h1, h2, h3, h4, h5⟩ := ih (createValues pr.id (v :: vs) s)
              rw [h1, h2, h3, h4, h5, createValues_spec]
              exact ⟨rfl, rfl, rfl, rfl, rfl⟩

theorem appendParamValues_values (eid : Nat) (entries : List ParamUpdateEntry) (s : Store) :
    ∃ t, (appendParamValues eid entries s).1.values = s.values ++ t ∧
      ∀ v ∈ t, ∃ pr, pr ∈ s.parameters ∧ pr.id = v.parameter ∧ pr.equipment = eid := by
  induction entries generalizing s with
  | nil => exact ⟨[], by simp [appendParamValues], by simp⟩
  | cons en rest ih =>
      rcases hid : en.id with _ | pid
      · simp only [appendParamValues, hid]
        exact ⟨[], by simp, by simp⟩
      · simp only [appendParamValues, hid]
        by_cases h0 : pid = 0
        · simp only [if_pos h0]
          exact ⟨[], by simp, by simp⟩
        · simp only [if_neg h0]
          rcases hl : lookupParam s pid eid with _ | pr
          · exact ⟨[], by simp, by simp⟩
          · rcases hv : en.parameter_values with _ | ⟨v, vs⟩
            · exact ⟨[], by simp, by simp⟩
            · obtain ⟨hmem, hprid, hpreq⟩ := lookupParam_some hl
              obtain ⟨t2, ht2, ht2o⟩ := ih (createValues pr.id (v :: vs) s)
              refine ⟨mkValues pr.id s.nextId (v :: vs) ++ t2, ?_, ?_⟩
              · rw [ht2, createValues_spec]
                simp [List.append_assoc]
              · intro w hw
                rcases List.mem_append.mp hw with hw | hw
                · have hp := (mem_mkValues pr.id (v :: vs) s.nextId w hw).1
                  exact ⟨pr, hmem, hp ▸ rfl, hpreq⟩
                · obtain ⟨pr2, hpr2m, hpr2⟩ := ht2o w hw
                  have : (createValues pr.id (v :: vs) s).parameters = s.parameters :=
                    (createValues_frame ..).2.2.2.2
                  exact ⟨pr2, this ▸ hpr2m, hpr2⟩

theorem setEquipScalars_frame (eid : Nat) (n : Option String) (a : Option Bool) (s : Store) :
    (setEquipScalars eid n a s).clinics = s.clinics ∧
    (setEquipScalars eid n a s).departments = s.departments ∧
    (setEquipScalars eid n a s).details = s.details ∧
    (setEquipScalars eid n a s).parameters = s.parameters ∧
    (setEquipScalars eid n a s).values = s.values ∧
    (setEquipScalars eid n a s).nextId = s.nextId := by
  exact ⟨rfl, rfl, rfl, rfl, rfl, rfl⟩

theorem equipmentUpdateRaw_err (eid : Nat) (p : EquipmentUpdatePayload) (s : Store) :
    (equipmentUpdateRaw eid p s).2 = firstParamErr s.parameters eid p.parameters := by
  unfold equipmentUpdateRaw
  rw [appendParamValues_err]
  rw [(createDetails_frame ..).2.2.2.1, (setEquipScalars_frame ..).2.2.2.1]

theorem equipmentUpdateRaw_frame (eid : Nat) (p : EquipmentUpdatePayload) (s : Store) :
    (equipmentUpdateRaw eid p s).1.clinics = s.clinics ∧
    (equipmentUpdateRaw eid p s).1.departments = s.departments ∧
    (equipmentUpdateRaw eid p s).1.parameters = s.parameters ∧
    (equipmentUpdateRaw eid p s).1.equipments =
      (setEquipScalars eid p.equipment_name p.is_active s).equipments ∧
    ∃ t, (equipmentUpdateRaw eid p s).1.details = s.details ++ t := by
  unfold equipmentUpdateRaw
  obtain ⟨a1, a2, a3, a4, a5⟩ := appendParamValues_frame eid p.parameters
    (createDetails eid p.equipment_details (setEquipScalars eid p.equipment_name p.is_active s))
  obtain ⟨d1, d2, d3, d4, d5⟩ := createDetails_frame eid p.equipment_details
    (setEquipScalars eid p.equipment_name p.is_active s)
  refine ⟨?_, ?_, ?_, ?_, ?_⟩
  · rw [a1, d1, (setEquipScalars_frame ..).1]
  · rw [a2, d2, (setEquipScalars_frame ..).2.1]
  · rw [a5, d4, (setEquipScalars_frame ..).2.2.2.1]
  · rw [a3, d3]
  · refine ⟨mkDetails eid (setEquipScalars eid p.equipment_name p.is_active s).nextId
      p.equipment_details, ?_⟩
    rw [a4, createDetails_spec]
    simp [(setEquipScalars_frame ..).2.2.1]

theorem equipmentUpdateRaw_values (eid : Nat) (p : EquipmentUpdatePayload) (s : Store) :
    ∃ t, (equipmentUpdateRaw eid p s).1.values = s.values ++ t ∧
      ∀ v ∈ t, ∃ pr, pr ∈ s.parameters ∧ pr.id = v.parameter ∧ pr.equipment = eid := by
  unfold equipmentUpdateRaw
  obtain ⟨t, ht, hto⟩ := appendParamValues_values eid p.parameters
    (createDetails eid p.equipment_details (setEquipScalars eid p.equipment_name p.is_active s))
  refine ⟨t, ?_, ?_⟩
  · rw [ht, (createDetails_frame ..).2.2.2.2, (setEquipScalars_frame ..).2.2.2.2.1]
  · intro v hv
    obtain ⟨pr, hprm, hpr⟩ := hto v hv
    rw [(createDetails_frame ..).2.2.2.1, (setEquipScalars_frame ..).2.2.2.1] at hprm
    exact ⟨pr, hprm, hpr⟩

theorem equipmentCreateRaw_frame (depId : Nat) (p : EquipmentCreatePayload) (s : Store) :
    (equipmentCreateRaw depId p s).1.clinics = s.clinics ∧
    (equipmentCreateRaw depId p s).1.departments = s.departments := by
  unfold equipmentCreateRaw
  obtain ⟨c1, c2, c3, c4⟩ := createParameters_frame s.nextId p.parameters
    (createDetails s.nextId p.equipment_details
      (s.insEquipment depId p.equipment_name (p.is_active.getD true)))
  obtain ⟨d1, d2, d3, d4, d5⟩ := createDetails_frame s.nextId p.equipment_details
    (s.insEquipment depId p.equipment_name (p.is_active.getD true))
  constructor
  · rw [c1, d1]
    simp [Store.insEquipment]
  · rw [c2, d2]
    simp [Store.insEquipment]

theorem createEquipments_frame (depId : Nat) (es : List EquipmentCreatePayload) (s : Store) :
    (createEquipments depId es s).1.clinics = s.clinics ∧
    (createEquipments depId es s).1.departments = s.departments := by
  induction es generalizing s with
  | nil => exact ⟨rfl, rfl⟩
  | cons e rest ih =>
      rw [createEquipments]
      rcases hr : equipmentCreateRaw depId e s with ⟨s1, err⟩
      have hf := equipmentCreateRaw_frame depId e s
      rw [hr] at hf
      cases err with
      | none =>
          obtain ⟨i1, i2⟩ := ih s1
          exact ⟨i1.trans hf.1, i2.trans hf.2⟩
      | some err => exact hf

theorem createDepartments_frame (cid : Nat) (ds : List DepartmentPayload) (s : Store) :
    (createDepartments cid ds s).1.clinics = s.clinics := by
  induction ds generalizing s with
  | nil => rfl
  | cons d rest ih =>
      rw [createDepartments]
      rcases hr : createEquipments s.nextId d.equipments
          (s.insDepartment cid d.name (d.is_active.getD true)) with ⟨s2, err⟩
      have hf := (createEquipments_frame s.nextId d.equipments
        (s.insDepartment cid d.name (d.is_active.getD true))).1
      rw [hr] at hf
      have hins : (s.insDepartment cid d.name (d.is_active.getD true)).clinics = s.clinics := rfl
      cases err with
      | none => exact (ih s2).trans (hf.trans hins)
      | some err => exact hf.trans hins

/-- On success, the create-departments loop appends exactly one fresh
Department row per payload entry (same order, same names, bound to the
clinic) and touches no pre-existing department. -/
theorem createDepartments_spec (cid : Nat) (ds : List DepartmentPayload) (s s1 : Store)
    (h : createDepartments cid ds s = (s1, none)) :
    ∃ t, s1.departments = s.departments ++ t ∧
      t.map (fun d => d.name) = ds.map (fun d => d.name) ∧
      ∀ d ∈ t, d.clinic = cid ∧ s.nextId ≤ d.id := by
  induction ds generalizing s with
  | nil =>
      rw [createDepartments] at h
      simp only [Prod.mk.injEq] at h
      exact ⟨[], by rw [← h.1]; simp, by simp, by simp⟩
  | cons d rest ih =>
      rw [createDepartments] at h
      rcases hr : createEquipments s.nextId d.equipments
          (s.insDepartment cid d.name (d.is_active.getD true)) with ⟨s2, err⟩
      rw [hr] at h
      cases err with
      | some err => simp at h
      | none =>
          obtain ⟨t2, ht2, ht2n, ht2f⟩ := ih s2 h
          have hdep : s2.departments =
              s.departments ++ [⟨s.nextId, cid, d.name, d.is_active.getD true⟩] := by
            have := (createEquipments_frame s.nextId d.equipments
              (s.insDepartment cid d.name (d.is_active.getD true))).2
            rw [hr] at this
            exact this
          have hnext : s.nextId + 1 ≤ s2.nextId := by
            have := (grows_createEquipments s.nextId d.equipments
              (s.insDepartment cid d.name (d.is_active.getD true))).nextLe
            rw [hr] at this
            exact this
          refine ⟨⟨s.nextId, cid, d.name, d.is_active.getD true⟩ :: t2, ?_, ?_, ?_⟩
          · rw [ht2, hdep]
            simp
          · simp [ht2n]
          · intro w hw
            rcases List.mem_cons.mp hw with hw | hw
            · subst hw
              exact ⟨rfl, Nat.le_refl _⟩
            · obtain ⟨hwc, hwf⟩ := ht2f w hw
              exact ⟨hwc, by omega⟩

theorem createEquipments_err_of_mem (depId : Nat) (es : List EquipmentCreatePayload)
    (s : Store) (e : EquipmentCreatePayload) (en : ParamCreatePayload)
    (he : e ∈ es) (hen : en ∈ e.parameters)
    (h1 : en.parameter_values = []) (h2 : en.format = none) :
    (createEquipments depId es s).2 = some WErr.paramValuesEmpty := by
  induction es generalizing s with
  | nil => simp at he
  | cons e0 rest ih =>
      rw [createEquipments]
      rcases hr : equipmentCreateRaw depId e0 s with ⟨s1, err⟩
      have herr := equipmentCreateRaw_err depId e0 s
      rw [hr] at herr
      rcases List.mem_cons.mp he with he0 | he0
      · subst he0
        have herr2 : err = firstCreateErr e.parameters := herr
        rw [firstCreateErr_of_mem e.parameters en hen h1 h2] at herr2
        subst herr2
        rfl
      · cases err with
        | none => exact ih s1 he0
        | some err =>
            have : err = WErr.paramValuesEmpty := firstCreateErr_range _ _ herr.symm
            subst this
            rfl

theorem createDepartments_err_of_mem (cid : Nat) (ds : List DepartmentPayload)
    (s : Store) (d : DepartmentPayload) (e : EquipmentCreatePayload)
    (en : ParamCreatePayload) (hd : d ∈ ds) (he : e ∈ d.equipments)
    (hen : en ∈ e.parameters)
    (h1 : en.parameter_values = []) (h2 : en.format = none) :
    (createDepartments cid ds s).2 = some WErr.paramValuesEmpty := by
  induction ds generalizing s with
  | nil => simp at hd
  | cons d0 rest ih =>
      rw [createDepartments]
      rcases hr : createEquipments s.nextId d0.equipments
          (s.insDepartment cid d0.name (d0.is_active.getD true)) with ⟨s2, err⟩
      rcases List.mem_cons.mp hd with hd0 | hd0
      · subst hd0
        have herr := createEquipments_err_of_mem s.nextId d.equipments
          (s.insDepartment cid d.name (d.is_active.getD true)) e en he hen h1 h2
        rw [hr] at herr
        have herr2 : err = some WErr.paramValuesEmpty := herr
        subst herr2
        rfl
      · cases err with
        | none => exact ih s2 hd0
        | some err =>
            have : err = WErr.paramValuesEmpty :=
              createEquipments_err_range _ _ _ err (by rw [hr])
            subst this
            rfl

/-- One create-parameters iteration with value payload `vs` on top of a
fresh Parameter, written as an explicit record update. -/
theorem param_step_eq (eid : Nat) (name : String) (act : Bool)
    (vs : List ValuePayload) (s : Store) :
    createValues s.nextId vs (s.insParameter eid name act) =
      { s with parameters := s.parameters ++ [⟨s.nextId, eid, name, act⟩],
               values := s.values ++ mkValues s.nextId (s.nextId + 1) vs,
               nextId := s.nextId + 1 + vs.length } := by
  rw [createValues_spec]
  simp [Store.insParameter]

/-- The foreign-key bound on value rows survives one create-parameters
iteration. -/
theorem fk_param_step (eid : Nat) (name : String) (act : Bool)
    (vs : List ValuePayload) (s : Store)
    (hfk : ∀ v ∈ s.values, v.parameter < s.nextId) :
    ∀ v ∈ (createValues s.nextId vs (s.insParameter eid name act)).values,
      v.parameter < (createValues s.nextId vs (s.insParameter eid name act)).nextId := by
  rw [param_step_eq]
  intro v hv
  simp only at hv ⊢
  rcases List.mem_append.mp hv with hv | hv
  · have := hfk v hv
    omega
  · have := (mem_mkValues s.nextId vs (s.nextId + 1) v hv).1
    omega

/-- Processing a `format`-alias entry creates the fresh Parameter
(id = the old counter) and, in the raw store of the remaining loop,
that parameter owns exactly one value row, with the alias payload as its
content — no other value row ever points at it. -/
theorem format_entry_result (eid : Nat) (post : List ParamCreatePayload) (s : Store)
    (name : String) (act : Bool) (f : Content)
    (hfk : ∀ v ∈ s.values, v.parameter < s.nextId) :
    ∃ pr, pr ∈ (createParameters eid post
        (createValues s.nextId [⟨none, f⟩] (s.insParameter eid name act))).1.parameters ∧
      pr.id = s.nextId ∧ pr.equipment = eid ∧ pr.parameter_name = name ∧
      (((createParameters eid post
          (createValues s.nextId [⟨none, f⟩] (s.insParameter eid name act))).1.values.filter
        (fun v => v.parameter == s.nextId)).map (fun v => v.content)) = [f] := by
  rw [param_step_eq]
  obtain ⟨-, -, -, -, -, ⟨tp, htp, -⟩, ⟨tv, htv, htvf⟩⟩ :=
    grows_createParameters eid post
      { s with parameters := s.parameters ++ [⟨s.nextId, eid, name, act⟩],
               values := s.values ++ mkValues s.nextId (s.nextId + 1) [⟨none, f⟩],
               nextId := s.nextId + 1 + [(⟨none, f⟩ : ValuePayload)].length }
  refine ⟨⟨s.nextId, eid, name, act⟩, ?_, rfl, rfl, rfl, ?_⟩
  · rw [htp]
    simp
  · rw [htv]
    simp only [mkValues, List.length_cons, List.length_nil]
    rw [List.filter_append, List.filter_append]
    have h1 : s.values.filter (fun v => v.parameter == s.nextId) = [] := by
      apply List.filter_eq_nil_iff.mpr
      intro v hv
      have := hfk v hv
      simp only [beq_iff_eq]
      omega
    have h2 : tv.filter (fun v => v.parameter == s.nextId) = [] := by
      apply List.filter_eq_nil_iff.mpr
      intro v hv
      have := (htvf v hv).2
      simp only at this
      simp only [beq_iff_eq]
      omega
    rw [h1, h2]
    simp

/-- In a successful create-parameters loop, every entry that used the
`format` alias produced a fresh parameter carrying exactly one value,
whose content is the alias payload. -/
theorem createParameters_format_spec (eid : Nat) (pre : List ParamCreatePayload) :
    ∀ (s : Store) (en : ParamCreatePayload) (post : List ParamCreatePayload) (f : Content),
      (∀ v ∈ s.values, v.parameter < s.nextId) →
      en.parameter_values = [] → en.format = some f →
      (createParameters eid (pre ++ en :: post) s).2 = none →
      ∃ pid pr, s.nextId ≤ pid ∧
        pr ∈ (createParameters eid (pre ++ en :: post) s).1.parameters ∧
        pr.id = pid ∧ pr.equipment = eid ∧ pr.parameter_name = en.parameter_name ∧
        (((createParameters eid (pre ++ en :: post) s).1.values.filter
          (fun v => v.parameter == pid)).map (fun v => v.content)) = [f] := by
  induction pre with
  | nil =>
      intro s en post f hfk h1 h2 hok
      simp only [List.nil_append] at hok ⊢
      rw [createParameters] at hok ⊢
      rw [h1, h2] at hok ⊢
      obtain ⟨pr, hm, hi, he, hn, hf⟩ :=
        format_entry_result eid post s en.parameter_name (en.is_active.getD true) f hfk
      exact ⟨s.nextId, pr, Nat.le_refl _, hm, hi, he, hn, hf⟩
  | cons q pre1 ih =>
      intro s en post f hfk h1 h2 hok
      rcases hv : q.parameter_values with _ | ⟨v, vs⟩ <;>
        rcases hg : q.format with _ | g <;>
        simp only [List.cons_append, createParameters, hv, hg] at hok ⊢
      · simp at hok
      all_goals {
        obtain ⟨pid, pr, hle, hm, hi, he, hn, hf⟩ := ih _ en post f
          (by
            first
              | exact fk_param_step eid q.parameter_name (q.is_active.getD true) [⟨none, g⟩] s hfk
              | exact fk_param_step eid q.parameter_name (q.is_active.getD true) (v :: vs) s hfk)
          h1 h2 hok
        refine ⟨pid, pr, ?_, hm, hi, he, hn, hf⟩
        refine Nat.le_trans ?_ hle
        rw [param_step_eq]
        simp only
        omega }

/-!  Claim theorems. -/

/-- C2: every reconciler write operation (clinic create, clinic update,
equipment create, equipment update) is atomic — whenever the operation
reports a validation error, the committed store equals the store before
the operation.  In particular a clinic-create payload containing one
malformed Parameter entry (no values, no `format`) is rejected wholesale
with the empty-values error, and an equipment update whose entry resolves
to an owned parameter but carries an empty `parameter_values` list is
rejected with a validation error scoped to the `parameter_values` field,
the store staying unchanged in both cases. -/
theorem c2_reconciler_atomicity :
    (∀ p s, (clinicCreate p s).2 ≠ none → (clinicCreate p s).1 = s) ∧
    (∀ cid p s, (clinicUpdate cid p s).2 ≠ none → (clinicUpdate cid p s).1 = s) ∧
    (∀ depId p s, (equipmentCreate depId p s).2 ≠ none → (equipmentCreate depId p s).1 = s) ∧
    (∀ eid p s, (equipmentUpdate eid p s).2 ≠ none → (equipmentUpdate eid p s).1 = s) ∧
    (∀ p s d e en, d ∈ p.department → e ∈ d.equipments → en ∈ e.parameters →
      en.parameter_values = [] → en.format = none →
      clinicCreate p s = (s, some WErr.paramValuesEmpty)) ∧
    (∀ eid p s en rest pid pr, p.parameters = en :: rest → en.id = some pid →
      pid ≠ 0 → lookupParam s pid eid = some pr → en.parameter_values = [] →
      equipmentUpdate eid p s = (s, some WErr.paramValuesEmpty) ∧
      WErr.fieldKey WErr.paramValuesEmpty = "parameter_values") := by
  refine ⟨?_, ?_, ?_, ?_, ?_, ?_⟩
  · intro p s h
    exact atomic_err_unchanged _ s h
  · intro cid p s h
    exact atomic_err_unchanged _ s h
  · intro depId p s h
    exact atomic_err_unchanged _ s h
  · intro eid p s h
    exact atomic_err_unchanged _ s h
  · intro p s d e en hd he hen h1 h2
    unfold clinicCreate
    apply atomic_of_err
    exact createDepartments_err_of_mem s.nextId p.department (s.insClinic p.name)
      d e en hd he hen h1 h2
  · intro eid p s en rest pid pr hp hid h0 hl hv
    refine ⟨?_, rfl⟩
    unfold equipmentUpdate
    apply atomic_of_err
    rw [equipmentUpdateRaw_err, hp]
    have hl1 := hl
    unfold lookupParam at hl1
    simp only [firstParamErr, hid, if_neg h0, hl1, hv]

theorem c2_reconciler_atomicity_witness :
    (clinicCreate badClinicPayload emptyStore).1 = emptyStore ∧
    (clinicUpdate 7 badClinicPayload emptyStore).1 = emptyStore ∧
    (equipmentCreate 1 badEquipmentPayload emptyStore).1 = emptyStore ∧
    (equipmentUpdate 1 emptyValuesUpdate voltageStore).1 = voltageStore ∧
    clinicCreate badClinicPayload emptyStore = (emptyStore, some WErr.paramValuesEmpty) ∧
    (equipmentUpdate 1 emptyValuesUpdate voltageStore =
        (voltageStore, some WErr.paramValuesEmpty) ∧
      WErr.fieldKey WErr.paramValuesEmpty = "parameter_values") := by
  refine ⟨?_, ?_, ?_, ?_, ?_, ?_⟩
  · exact c2_reconciler_atomicity.1 badClinicPayload emptyStore (by decide)
  · exact c2_reconciler_atomicity.2.1 7 badClinicPayload emptyStore (by decide)
  · exact c2_reconciler_atomicity.2.2.1 1 badEquipmentPayload emptyStore (by decide)
  · exact c2_reconciler_atomicity.2.2.2.1 1 emptyValuesUpdate voltageStore (by decide)
  · exact c2_reconciler_atomicity.2.2.2.2.1 badClinicPayload emptyStore
      ⟨"Cardiology", none, [badEquipmentPayload]⟩ badEquipmentPayload badParamEntry
      (List.mem_cons_self _ _) (List.mem_cons_self _ _) (List.mem_cons_self _ _) rfl rfl
  · exact c2_reconciler_atomicity.2.2.2.2.2 1 emptyValuesUpdate voltageStore
      ⟨some 1, none, none, [], none⟩ [] 1 ⟨1, 1, "Voltage", true⟩
      rfl rfl (by decide) rfl rfl

/-- C5: on equipment create (the same code path serves the direct endpoint
and the clinic-nested one), every parameter entry must supply a non-empty
`parameter_values` list or a `format` field: if neither is present the
creation fails with a validation error on the `parameter_values` field;
if only `format` is present, the entry's fresh parameter ends up with
exactly one ParameterValue whose content equals the `format` payload; and
a malformed entry nested anywhere in a clinic-create payload triggers the
same error. -/
theorem c5_create_values_or_format :
    (∀ depId p s pre en post,
      p.parameters = pre ++ en :: post →
      (∀ q ∈ pre, q.parameter_values ≠ [] ∨ q.format ≠ none) →
      en.parameter_values = [] → en.format = none →
      equipmentCreate depId p s = (s, some WErr.paramValuesEmpty) ∧
      WErr.fieldKey WErr.paramValuesEmpty = "parameter_values") ∧
    (∀ depId p s s1 pre en post f,
      (∀ v ∈ s.values, v.parameter < s.nextId) →
      equipmentCreate depId p s = (s1, none) →
      p.parameters = pre ++ en :: post →
      en.parameter_values = [] → en.format = some f →
      ∃ pid pr, s.nextId ≤ pid ∧ pr ∈ s1.parameters ∧ pr.id = pid ∧
        pr.equipment = s.nextId ∧ pr.parameter_name = en.parameter_name ∧
        ((s1.values.filter (fun v => v.parameter == pid)).map
          (fun v => v.content)) = [f]) ∧
    (∀ p s d e en, d ∈ p.department → e ∈ d.equipments → en ∈ e.parameters →
      en.parameter_values = [] → en.format = none →
      (clinicCreate p s).2 = some WErr.paramValuesEmpty) := by
  refine ⟨?_, ?_, ?_⟩
  · intro depId p s pre en post hp hpre h1 h2
    refine ⟨?_, rfl⟩
    unfold equipmentCreate
    apply atomic_of_err
    rw [equipmentCreateRaw_err, hp, firstCreateErr_skip pre (en :: post) hpre]
    simp only [firstCreateErr, h1, h2]
  · intro depId p s s1 pre en post f hfk hok hp h1 h2
    have hraw := atomic_of_ok _ _ _ hok
    unfold equipmentCreateRaw at hraw
    have hv2 : (createDetails s.nextId p.equipment_details
        (s.insEquipment depId p.equipment_name (p.is_active.getD true))).values
        = s.values := by
      rw [createDetails_spec]
      simp [Store.insEquipment]
    have hn2 : s.nextId ≤ (createDetails s.nextId p.equipment_details
        (s.insEquipment depId p.equipment_name (p.is_active.getD true))).nextId := by
      rw [createDetails_spec]
      simp [Store.insEquipment]
      omega
    have hfk2 : ∀ v ∈ (createDetails s.nextId p.equipment_details
        (s.insEquipment depId p.equipment_name (p.is_active.getD true))).values,
        v.parameter < (createDetails s.nextId p.equipment_details
          (s.insEquipment depId p.equipment_name (p.is_active.getD true))).nextId := by
      rw [hv2]
      intro v hv
      exact Nat.lt_of_lt_of_le (hfk v hv) hn2
    rw [hp] at hraw
    obtain ⟨pid, pr, hle, hm, hi, he, hn, hf⟩ :=
      createParameters_format_spec s.nextId pre _ en post f hfk2 h1 h2 (by rw [hraw])
    rw [hraw] at hm hf
    exact ⟨pid, pr, Nat.le_trans hn2 hle, hm, hi, he, hn, hf⟩
  · intro p s d e en hd he hen h1 h2
    unfold clinicCreate
    rw [atomic_snd]
    exact createDepartments_err_of_mem s.nextId p.department (s.insClinic p.name)
      d e en hd he hen h1 h2

theorem c5_create_values_or_format_witness :
    (equipmentCreate 1 badEquipmentPayload emptyStore =
        (emptyStore, some WErr.paramValuesEmpty) ∧
      WErr.fieldKey WErr.paramValuesEmpty = "parameter_values") ∧
    (∃ pid pr, emptyStore.nextId ≤ pid ∧ pr ∈ mriResultStore.parameters ∧
      pr.id = pid ∧ pr.equipment = emptyStore.nextId ∧
      pr.parameter_name = mriParamEntry.parameter_name ∧
      ((mriResultStore.values.filter (fun v => v.parameter == pid)).map
        (fun v => v.content)) = [[("unit", "rpm")]]) ∧
    (clinicCreate badClinicPayload emptyStore).2 = some WErr.paramValuesEmpty := by
  refine ⟨?_, ?_, ?_⟩
  · exact c5_create_values_or_format.1 1 badEquipmentPayload emptyStore
      [] badParamEntry [] rfl (by simp) rfl rfl
  · exact c5_create_values_or_format.2.1 5 mriPayload emptyStore mriResultStore
      [] mriParamEntry [] [("unit", "rpm")] (by decide) (by decide) rfl rfl rfl
  · exact c5_create_values_or_format.2.2 badClinicPayload emptyStore
      ⟨"Cardiology", none, [badEquipmentPayload]⟩ badEquipmentPayload badParamEntry
      (List.mem_cons_self _ _) (List.mem_cons_self _ _) (List.mem_cons_self _ _) rfl rfl

theorem atomic_of_ok_none (f : Store → Store × Option WErr) (s : Store)
    (h : (f s).2 = none) : atomic f s = ((f s).1, none) := by
  unfold atomic
  rcases hf : f s with ⟨s1, err⟩
  rw [hf] at h
  cases err with
  | none => rfl
  | some e => simp at h

theorem equipmentInactiveView_values (depId eqId : Nat) (s : Store) :
    (equipmentInactiveView depId eqId s).1.values = s.values := by
  unfold equipmentInactiveView
  rcases h : s.equipments.find? (fun e => e.id == eqId && e.dep == depId) with _ | e <;>
    simp [h]

theorem equipmentSoftDeleteView_values (depId eqId : Nat) (s : Store) :
    (equipmentSoftDeleteView depId eqId s).1.values = s.values := by
  unfold equipmentSoftDeleteView
  rcases h : s.equipments.find? (fun e => e.id == eqId && e.dep == depId && !e.is_deleted)
    with _ | e <;> simp [h]

theorem grows_clinicCreateRaw (p : ClinicPayload) (s : Store) :
    Grows s (clinicCreateRaw p s).1 := by
  unfold clinicCreateRaw
  exact (grows_insClinic s p.name).trans (grows_createDepartments ..)

/-- Committed store of an atomic operation whose raw body only grows the
store: old value rows survive. -/
theorem atomic_mem_values (f : Store → Store × Option WErr) (s : Store)
    (v : ParameterValues) (hv : v ∈ s.values) (hg : Grows s (f s).1) :
    v ∈ (atomic f s).1.values := by
  unfold atomic
  rcases hf : f s with ⟨s1, err⟩
  cases err with
  | none =>
      obtain ⟨t, ht, -⟩ := hg.values
      rw [hf] at ht
      have ht1 : s1.values = s.values ++ t := ht
      simp only [ht1]
      exact List.mem_append_left t hv
  | some e => exact hv

/-- One append-only equipment update adding a single value to an owned
parameter: it succeeds, leaves the parameter table unchanged, adds
exactly one value row for that parameter, and keeps the parameter
resolvable. -/
theorem equipmentUpdate_oneValue (s : Store) (eid pid : Nat) (pr : Parameters)
    (v : ValuePayload) (h0 : pid ≠ 0) (hl : lookupParam s pid eid = some pr) :
    (equipmentUpdate eid (oneValuePayload pid v) s).2 = none ∧
    (equipmentUpdate eid (oneValuePayload pid v) s).1.parameters = s.parameters ∧
    countValuesFor (equipmentUpdate eid (oneValuePayload pid v) s).1 pid =
      countValuesFor s pid + 1 ∧
    lookupParam (equipmentUpdate eid (oneValuePayload pid v) s).1 pid eid = some pr := by
  have hparam2 : (createDetails eid [] (setEquipScalars eid none none s)).parameters
      = s.parameters := by
    rw [(createDetails_frame ..).2.2.2.1]
    rfl
  have hval2 : (createDetails eid [] (setEquipScalars eid none none s)).values
      = s.values := by
    rw [(createDetails_frame ..).2.2.2.2]
    rfl
  have hl2 : lookupParam (createDetails eid [] (setEquipScalars eid none none s)) pid eid
      = some pr := by
    unfold lookupParam at hl ⊢
    rw [hparam2]
    exact hl
  have hraw : equipmentUpdateRaw eid (oneValuePayload pid v) s =
      (createValues pr.id [v] (createDetails eid [] (setEquipScalars eid none none s)),
        none) := by
    unfold equipmentUpdateRaw
    simp only [oneValuePayload, appendParamValues, if_neg h0, hl2]
  have hok : (equipmentUpdateRaw eid (oneValuePayload pid v) s).2 = none := by
    rw [hraw]
  have hupd : equipmentUpdate eid (oneValuePayload pid v) s =
      ((equipmentUpdateRaw eid (oneValuePayload pid v) s).1, none) :=
    atomic_of_ok_none _ s hok
  have hfst : (equipmentUpdate eid (oneValuePayload pid v) s).1 =
      createValues pr.id [v] (createDetails eid [] (setEquipScalars eid none none s)) := by
    rw [hupd, hraw]
  have hprid : pr.id = pid := (lookupParam_some hl).2.1
  refine ⟨by rw [hupd], ?_, ?_, ?_⟩
  · rw [hfst, (createValues_frame ..).2.2.2.2, hparam2]
  · rw [hfst, hprid, countValuesFor_createValues]
    have hc : countValuesFor (createDetails eid [] (setEquipScalars eid none none s)) pid
        = countValuesFor s pid := by
      unfold countValuesFor
      rw [hval2]
    rw [hc]
    rfl
  · rw [hfst]
    unfold lookupParam at hl ⊢
    rw [(createValues_frame ..).2.2.2.2, hparam2]
    exact hl

/-- C1 (counterexample): the claim says an id that does not resolve to a
Parameter owned by this equipment yields a validation error naming that
id.  Payload id `0` never resolves (row ids start at 1), yet the code's
`if not param_id:` check treats the falsy `0` exactly like a missing id
and raises the fixed required-id message, which names no id — so the
claim fails at id 0. -/
theorem c1_zero_id_counterexample :
    equipmentUpdate 1
        ⟨none, none, [], [⟨some 0, none, none, [⟨none, [("k", "v")]⟩], none⟩]⟩
        voltageStore
      = (voltageStore, some WErr.paramIdRequired) ∧
    WErr.paramIdRequired ≠ WErr.paramNotFound 0 ∧
    WErr.message WErr.paramIdRequired = "Parameter id is required for update" := by
  refine ⟨by decide, by decide, rfl⟩

/-- C1 (amended): on equipment update, each parameter entry must carry an
id of a Parameter owned by the equipment being updated: a missing id —
or an id of 0, which Python truthiness makes indistinguishable from a
missing one — yields the validation error "Parameter id is required for
update"; a nonzero id that does not resolve under this equipment yields a
validation error naming that id; and in no case is a ParameterValue
appended to a Parameter of a different equipment (every value row added
by the update belongs to a parameter owned by `eid`). -/
theorem c1_parameter_update_validation (s : Store) (eid : Nat) (p : EquipmentUpdatePayload) :
    (∀ pre en post, p.parameters = pre ++ en :: post →
      (∀ q ∈ pre, entryOk s.parameters eid q = true) →
      ((en.id = none ∨ en.id = some 0 →
          equipmentUpdate eid p s = (s, some WErr.paramIdRequired) ∧
          WErr.message WErr.paramIdRequired = "Parameter id is required for update") ∧
       (∀ pid, en.id = some pid → pid ≠ 0 → lookupParam s pid eid = none →
          equipmentUpdate eid p s = (s, some (WErr.paramNotFound pid))))) ∧
    (∀ v ∈ (equipmentUpdate eid p s).1.values,
      v ∈ s.values ∨ ∃ pr, pr ∈ s.parameters ∧ pr.id = v.parameter ∧ pr.equipment = eid) := by
  constructor
  · intro pre en post hp hpre
    constructor
    · intro hid
      refine ⟨?_, rfl⟩
      unfold equipmentUpdate
      apply atomic_of_err
      rw [equipmentUpdateRaw_err, hp, firstParamErr_skip s.parameters eid pre _ hpre]
      rcases hid with hid | hid
      · simp only [firstParamErr, hid]
      · simp only [firstParamErr, hid, if_pos]
    · intro pid hid h0 hl
      unfold equipmentUpdate
      apply atomic_of_err
      rw [equipmentUpdateRaw_err, hp, firstParamErr_skip s.parameters eid pre _ hpre]
      have hl1 := hl
      unfold lookupParam at hl1
      simp only [firstParamErr, hid, if_neg h0, hl1]
  · intro v hv
    rcases hr : equipmentUpdateRaw eid p s with ⟨s1, err⟩
    cases err with
    | none =>
        have hupd : equipmentUpdate eid p s = (s1, none) := by
          unfold equipmentUpdate atomic
          rw [hr]
        obtain ⟨t, ht, hto⟩ := equipmentUpdateRaw_values eid p s
        rw [hr] at ht
        have hval : (equipmentUpdate eid p s).1.values = s.values ++ t := by
          rw [hupd]
          exact ht
        rw [hval] at hv
        rcases List.mem_append.mp hv with hv | hv
        · exact Or.inl hv
        · exact Or.inr (hto v hv)
    | some e =>
        have hupd : equipmentUpdate eid p s = (s, some e) := by
          apply atomic_of_err
          rw [hr]
        rw [hupd] at hv
        exact Or.inl hv

theorem c1_parameter_update_validation_witness :
    (equipmentUpdate 1
          ⟨none, none, [], [⟨none, none, none, [⟨none, [("k", "v")]⟩], none⟩]⟩
          voltageStore
        = (voltageStore, some WErr.paramIdRequired) ∧
      WErr.message WErr.paramIdRequired = "Parameter id is required for update") ∧
    equipmentUpdate 1
        ⟨none, none, [], [⟨some 9, none, none, [⟨none, [("k", "v")]⟩], none⟩]⟩
        voltageStore
      = (voltageStore, some (WErr.paramNotFound 9)) ∧
    ((⟨2, 1, [("k", "v")], false⟩ : ParameterValues) ∈ voltageStore.values ∨
      ∃ pr, pr ∈ voltageStore.parameters ∧ pr.id = 1 ∧ pr.equipment = 1) := by
  refine ⟨?_, ?_, ?_⟩
  · exact ((c1_parameter_update_validation voltageStore 1
      ⟨none, none, [], [⟨none, none, none, [⟨none, [("k", "v")]⟩], none⟩]⟩).1
      [] ⟨none, none, none, [⟨none, [("k", "v")]⟩], none⟩ [] rfl (by simp)).1 (Or.inl rfl)
  · exact ((c1_parameter_update_validation voltageStore 1
      ⟨none, none, [], [⟨some 9, none, none, [⟨none, [("k", "v")]⟩], none⟩]⟩).1
      [] ⟨some 9, none, none, [⟨none, [("k", "v")]⟩], none⟩ [] rfl (by simp)).2
      9 rfl (by decide) (by decide)
  · exact (c1_parameter_update_validation voltageStore 1
      (oneValuePayload 1 ⟨none, [("k", "v")]⟩)).2 ⟨2, 1, [("k", "v")], false⟩ (by decide)

/-- Value rows that are not cascade-dead survive a raw clinic update. -/
theorem clinicUpdateRaw_surviving_values (cid : Nat) (p : ClinicPayload) (s : Store)
    (v : ParameterValues) (hv : v ∈ s.values)
    (hdead : memNat v.parameter (deadParamIds s cid) = false) :
    v ∈ (clinicUpdateRaw cid p s).1.values := by
  have hkey : clinicUpdateRaw cid p s = createDepartments cid p.department
      { deleteDepartmentsOfClinic cid s with clinics :=
          (deleteDepartmentsOfClinic cid s).clinics.map (fun c =>
            if c.id == cid then { c with name := p.name } else c) } := rfl
  rw [hkey]
  obtain ⟨t, ht, -⟩ := (grows_createDepartments cid p.department
    { deleteDepartmentsOfClinic cid s with clinics :=
        (deleteDepartmentsOfClinic cid s).clinics.map (fun c =>
          if c.id == cid then { c with name := p.name } else c) }).values
  rw [ht]
  apply List.mem_append_left
  show v ∈ s.values.filter (fun v => !(memNat v.parameter (deadParamIds s cid)))
  apply List.mem_filter.mpr
  exact ⟨hv, by simp [hdead]⟩

/-- C4: across every operation of the system, an existing ParameterValue
row is never mutated and never removed — it survives verbatim — except by
the cascade of a clinic-update department replace (and then only when the
value's parameter hangs under a department of the updated clinic); and two
sequential equipment updates, each appending one value to the same owned
parameter, leave exactly two value rows for it, never one. -/
theorem c4_values_append_only :
    (∀ op s v, v ∈ s.values → v ∈ (applyOp op s).values ∨
      ∃ cid p, op = Op.clinicUpdateOp cid p ∧
        memNat v.parameter (deadParamIds s cid) = true) ∧
    (∀ s eid pid pr v1 v2, pid ≠ 0 → lookupParam s pid eid = some pr →
      countValuesFor s pid = 0 →
      countValuesFor ((equipmentUpdate eid (oneValuePayload pid v2)
        ((equipmentUpdate eid (oneValuePayload pid v1) s).1)).1) pid = 2) := by
  constructor
  · intro op s v hv
    cases op with
    | clinicCreateOp p =>
        exact Or.inl (atomic_mem_values _ s v hv (grows_clinicCreateRaw p s))
    | clinicUpdateOp cid p =>
        by_cases hdead : memNat v.parameter (deadParamIds s cid) = true
        · exact Or.inr ⟨cid, p, rfl, hdead⟩
        · refine Or.inl ?_
          show v ∈ (atomic (clinicUpdateRaw cid p) s).1.values
          rcases hr : clinicUpdateRaw cid p s with ⟨s1, err⟩
          cases err with
          | none =>
              rw [atomic_of_ok_none _ s (by rw [hr])]
              exact clinicUpdateRaw_surviving_values cid p s v hv
                (Bool.eq_false_iff.mpr hdead)
          | some e =>
              rw [atomic_of_err _ s e (by rw [hr])]
              exact hv
    | equipmentCreateOp depId p =>
        exact Or.inl (atomic_mem_values _ s v hv (grows_equipmentCreateRaw depId p s))
    | equipmentUpdateOp eid p =>
        refine Or.inl ?_
        show v ∈ (atomic (equipmentUpdateRaw eid p) s).1.values
        rcases hr : equipmentUpdateRaw eid p s with ⟨s1, err⟩
        cases err with
        | none =>
            obtain ⟨t, ht, -⟩ := equipmentUpdateRaw_values eid p s
            rw [hr] at ht
            rw [atomic_of_ok_none _ s (by rw [hr])]
            have ht1 : s1.values = s.values ++ t := ht
            show v ∈ (equipmentUpdateRaw eid p s).1.values
            rw [hr, ht1]
            exact List.mem_append_left t hv
        | some e =>
            rw [atomic_of_err _ s e (by rw [hr])]
            exact hv
    | equipmentInactiveOp depId eqId =>
        refine Or.inl ?_
        show v ∈ (equipmentInactiveView depId eqId s).1.values
        rw [equipmentInactiveView_values]
        exact hv
    | equipmentSoftDeleteOp depId eqId =>
        refine Or.inl ?_
        show v ∈ (equipmentSoftDeleteView depId eqId s).1.values
        rw [equipmentSoftDeleteView_values]
        exact hv
  · intro s eid pid pr v1 v2 h0 hl hc
    obtain ⟨-, -, hcount1, hlook1⟩ := equipmentUpdate_oneValue s eid pid pr v1 h0 hl
    obtain ⟨-, -, hcount2, -⟩ := equipmentUpdate_oneValue
      (equipmentUpdate eid (oneValuePayload pid v1) s).1 eid pid pr v2 h0 hlook1
    rw [hcount2, hcount1, hc]

theorem c4_values_append_only_witness :
    ((⟨3, 2, [("unit", "rpm")], false⟩ : ParameterValues) ∈
        (applyOp (Op.equipmentInactiveOp 5 1) mriResultStore).values ∨
      ∃ cid p, Op.equipmentInactiveOp 5 1 = Op.clinicUpdateOp cid p ∧
        memNat (⟨3, 2, [("unit", "rpm")], false⟩ : ParameterValues).parameter
          (deadParamIds mriResultStore cid) = true) ∧
    countValuesFor ((equipmentUpdate 1 (oneValuePayload 1 ⟨none, [("b", "2")]⟩)
      ((equipmentUpdate 1 (oneValuePayload 1 ⟨none, [("a", "1")]⟩)
        voltageStore).1)).1) 1 = 2 := by
  constructor
  · exact c4_values_append_only.1 (Op.equipmentInactiveOp 5 1) mriResultStore
      ⟨3, 2, [("unit", "rpm")], false⟩ (by decide)
  · exact c4_values_append_only.2 voltageStore 1 1 ⟨1, 1, "Voltage", true⟩
      ⟨none, [("a", "1")]⟩ ⟨none, [("b", "2")]⟩ (by decide) (by decide) (by decide)

/-- Full characterisation of a successful raw clinic update: each table is
the cascade-filtered old table plus fresh rows, and the fresh departments
mirror the payload. -/
theorem clinicUpdateRaw_spec (cid : Nat) (p : ClinicPayload) (s s1 : Store)
    (h : clinicUpdateRaw cid p s = (s1, none)) :
    (∃ t, s1.departments = (s.departments.filter (fun d => !(d.clinic == cid))) ++ t ∧
      t.map (fun d => d.name) = p.department.map (fun d => d.name) ∧
      ∀ d ∈ t, d.clinic = cid ∧ s.nextId ≤ d.id) ∧
    (∃ t, s1.equipments = (s.equipments.filter
        (fun e => !(memNat e.dep (deadDepIds s cid)))) ++ t ∧
      ∀ r ∈ t, s.nextId ≤ r.id) ∧
    (∃ t, s1.details = (s.details.filter
        (fun dt => !(memNat dt.equipment (deadEqIds s cid)))) ++ t ∧
      ∀ r ∈ t, s.nextId ≤ r.id) ∧
    (∃ t, s1.parameters = (s.parameters.filter
        (fun pr => !(memNat pr.equipment (deadEqIds s cid)))) ++ t ∧
      ∀ r ∈ t, s.nextId ≤ r.id) ∧
    (∃ t, s1.values = (s.values.filter
        (fun v => !(memNat v.parameter (deadParamIds s cid)))) ++ t ∧
      ∀ r ∈ t, s.nextId ≤ r.id) := by
  have hkey : clinicUpdateRaw cid p s = createDepartments cid p.department
      { deleteDepartmentsOfClinic cid s with clinics :=
          (deleteDepartmentsOfClinic cid s).clinics.map (fun c =>
            if c.id == cid then { c with name := p.name } else c) } := rfl
  rw [hkey] at h
  obtain ⟨t, ht, htn, htf⟩ := createDepartments_spec _ _ _ _ h
  have hg := grows_createDepartments cid p.department
      { deleteDepartmentsOfClinic cid s with clinics :=
          (deleteDepartmentsOfClinic cid s).clinics.map (fun c =>
            if c.id == cid then { c with name := p.name } else c) }
  rw [h] at hg
  obtain ⟨tE, hE, hEf⟩ := hg.equipments
  obtain ⟨tD, hD, hDf⟩ := hg.details
  obtain ⟨tP, hP, hPf⟩ := hg.parameters
  obtain ⟨tV, hV, hVf⟩ := hg.values
  exact ⟨⟨t, ht, htn, fun d hd => ⟨(htf d hd).1, (htf d hd).2⟩⟩,
    ⟨tE, hE, fun r hr => hEf r hr⟩,
    ⟨tD, hD, fun r hr => hDf r hr⟩,
    ⟨tP, hP, fun r hr => hPf r hr⟩,
    ⟨tV, hV, fun r hr => (hVf r hr).1⟩⟩

theorem dead_dep_mem {s : Store} {cid : Nat} {d : Department}
    (hd : d ∈ s.departments) (hc : d.clinic = cid) :
    memNat d.id (deadDepIds s cid) = true := by
  rw [memNat_iff]
  exact List.mem_map.mpr ⟨d, List.mem_filter.mpr ⟨hd, by simp [hc]⟩, rfl⟩

theorem dead_eq_mem {s : Store} {cid : Nat} {e : Equipments}
    (he : e ∈ s.equipments) (hdep : memNat e.dep (deadDepIds s cid) = true) :
    memNat e.id (deadEqIds s cid) = true := by
  rw [memNat_iff]
  exact List.mem_map.mpr ⟨e, List.mem_filter.mpr ⟨he, hdep⟩, rfl⟩

theorem dead_param_mem {s : Store} {cid : Nat} {pr : Parameters}
    (hpr : pr ∈ s.parameters) (heq : memNat pr.equipment (deadEqIds s cid) = true) :
    memNat pr.id (deadParamIds s cid) = true := by
  rw [memNat_iff]
  exact List.mem_map.mpr ⟨pr, List.mem_filter.mpr ⟨hpr, heq⟩, rfl⟩

/-- A row whose id is below the counter and whose filter predicate is
false can appear neither among the filtered survivors nor among the
fresh rows. -/
theorem not_mem_filtered_append {α : Type} (idOf : α → Nat) (pred : α → Bool)
    (old t : List α) (n : Nat) (hfresh : ∀ r ∈ t, n ≤ idOf r)
    (x : α) (hxid : idOf x < n) (hx : pred x = false) :
    x ∉ old.filter pred ++ t := by
  intro hmem
  rcases List.mem_append.mp hmem with hm | hm
  · have := (List.mem_filter.mp hm).2
    rw [hx] at this
    exact Bool.false_ne_true this
  · have := hfresh x hm
    omega

/-- C3: clinic update deletes every department of the target clinic —
cascading to their equipments, details, parameters and values — and
recreates departments solely from the payload, bound to the same clinic
id: afterwards the clinic's departments correspond exactly (in order and
name) to the payload's department list, and every old row of the
replaced subtree is gone. -/
theorem c3_clinic_update_full_replace (s s1 : Store) (cid : Nat) (p : ClinicPayload)
    (hids : idsBelowNext s) (h : clinicUpdate cid p s = (s1, none)) :
    ((s1.departments.filter (fun d => d.clinic == cid)).map (fun d => d.name)
      = p.department.map (fun d => d.name)) ∧
    (∀ d ∈ s.departments, d.clinic = cid →
      d ∉ s1.departments ∧
      ∀ e ∈ s.equipments, e.dep = d.id →
        e ∉ s1.equipments ∧
        (∀ dt ∈ s.details, dt.equipment = e.id → dt ∉ s1.details) ∧
        ∀ pr ∈ s.parameters, pr.equipment = e.id →
          pr ∉ s1.parameters ∧
          ∀ v ∈ s.values, v.parameter = pr.id → v ∉ s1.values) := by
  have hraw := atomic_of_ok _ _ _ h
  obtain ⟨⟨t, ht, htn, htf⟩, ⟨tE, hE, hEf⟩, ⟨tD, hD, hDf⟩, ⟨tP, hP, hPf⟩, ⟨tV, hV, hVf⟩⟩ :=
    clinicUpdateRaw_spec cid p s s1 hraw
  obtain ⟨-, hidD, hidE, hidDt, hidP, hidV⟩ := hids
  constructor
  · rw [ht, List.filter_append]
    have h1 : (s.departments.filter (fun d => !(d.clinic == cid))).filter
        (fun d => d.clinic == cid) = [] := by
      apply List.filter_eq_nil_iff.mpr
      intro d hd
      have := (List.mem_filter.mp hd).2
      simp at this
      simp [this]
    have h2 : t.filter (fun d => d.clinic == cid) = t :=
      List.filter_eq_self.mpr (fun d hd => by simp [(htf d hd).1])
    rw [h1, h2, List.nil_append, htn]
  · intro d hd hdc
    have hdDead : memNat d.id (deadDepIds s cid) = true := dead_dep_mem hd hdc
    refine ⟨?_, ?_⟩
    · rw [ht]
      exact not_mem_filtered_append (fun r => r.id) _ _ _ s.nextId
        (fun r hr => (htf r hr).2) d (hidD d hd) (by simp [hdc])
    · intro e he hedep
      have heDead : memNat e.id (deadEqIds s cid) = true :=
        dead_eq_mem he (hedep ▸ hdDead)
      refine ⟨?_, ?_, ?_⟩
      · rw [hE]
        exact not_mem_filtered_append (fun r => r.id) _ _ _ s.nextId
          hEf e (hidE e he) (by simp [hedep ▸ hdDead])
      · intro dt hdt hdteq
        rw [hD]
        exact not_mem_filtered_append (fun r => r.id) _ _ _ s.nextId
          hDf dt (hidDt dt hdt) (by simp [hdteq ▸ heDead])
      · intro pr hpr hpreq
        have hprDead : memNat pr.id (deadParamIds s cid) = true :=
          dead_param_mem hpr (hpreq ▸ heDead)
        refine ⟨?_, ?_⟩
        · rw [hP]
          exact not_mem_filtered_append (fun r => r.id) _ _ _ s.nextId
            hPf pr (hidP pr hpr) (by simp [hpreq ▸ heDead])
        · intro v hv hvpar
          rw [hV]
          exact not_mem_filtered_append (fun r => r.id) _ _ _ s.nextId
            hVf v (hidV v hv) (by simp [hvpar ▸ hprDead])

theorem c3_clinic_update_full_replace_witness :
    ((c3Result.departments.filter (fun d => d.clinic == 1)).map (fun d => d.name)
      = c3Payload.department.map (fun d => d.name)) ∧
    (∀ d ∈ c3Store.departments, d.clinic = 1 →
      d ∉ c3Result.departments ∧
      ∀ e ∈ c3Store.equipments, e.dep = d.id →
        e ∉ c3Result.equipments ∧
        (∀ dt ∈ c3Store.details, dt.equipment = e.id → dt ∉ c3Result.details) ∧
        ∀ pr ∈ c3Store.parameters, pr.equipment = e.id →
          pr ∉ c3Result.parameters ∧
          ∀ v ∈ c3Store.values, v.parameter = pr.id → v ∉ c3Result.values) :=
  c3_clinic_update_full_replace c3Store c3Result 1 c3Payload (by decide) (by decide)

theorem exists_find?_eq_some {α : Type} (l : List α) (p : α → Bool) (x : α)
    (hx : x ∈ l) (hp : p x = true) : ∃ y, l.find? p = some y := by
  induction l with
  | nil => simp at hx
  | cons a rest ih =>
      by_cases hpa : p a = true
      · exact ⟨a, List.find?_cons_of_pos rest hpa⟩
      · rcases List.mem_cons.mp hx with h | h
        · subst h
          exact absurd hp hpa
        · obtain ⟨y, hy⟩ := ih h
          refine ⟨y, ?_⟩
          rw [List.find?_cons_of_neg rest (by simp [hpa]), hy]

/-- C8: on equipment update the scalars `equipment_name` and `is_active`
are set from the payload when present and keep their stored values when
absent; no Parameter row is touched at all (so no parameter_name or
is_active of an existing Parameter changes), clinics and departments are
untouched, details and values only gain appended rows, the updated
equipment keeps its `dep` and `is_deleted` fields, and every other
equipment row is untouched. -/
theorem c8_equipment_update_frame (s : Store) (eid : Nat) (p : EquipmentUpdatePayload)
    (e : Equipments) (he : e ∈ s.equipments) (hid : e.id = eid) :
    ((equipmentUpdate eid p s).2 = none →
      ∃ e1, e1 ∈ (equipmentUpdate eid p s).1.equipments ∧ e1.id = eid ∧
        e1.equipment_name = p.equipment_name.getD e.equipment_name ∧
        e1.is_active = p.is_active.getD e.is_active ∧
        e1.dep = e.dep ∧ e1.is_deleted = e.is_deleted) ∧
    (equipmentUpdate eid p s).1.parameters = s.parameters ∧
    (equipmentUpdate eid p s).1.clinics = s.clinics ∧
    (equipmentUpdate eid p s).1.departments = s.departments ∧
    (∃ t, (equipmentUpdate eid p s).1.details = s.details ++ t) ∧
    (∃ t, (equipmentUpdate eid p s).1.values = s.values ++ t) ∧
    (∀ e2 ∈ s.equipments, e2.id ≠ eid → e2 ∈ (equipmentUpdate eid p s).1.equipments) := by
  rcases hr : (equipmentUpdateRaw eid p s).2 with _ | err
  · have hfst : (equipmentUpdate eid p s).1 = (equipmentUpdateRaw eid p s).1 := by
      unfold equipmentUpdate
      rw [atomic_of_ok_none _ s hr]
    obtain ⟨f1, f2, f3, f4, ⟨tD, f5⟩⟩ := equipmentUpdateRaw_frame eid p s
    obtain ⟨tV, f6, -⟩ := equipmentUpdateRaw_values eid p s
    refine ⟨?_, by rw [hfst, f3], by rw [hfst, f1], by rw [hfst, f2],
      ⟨tD, by rw [hfst, f5]⟩, ⟨tV, by rw [hfst, f6]⟩, ?_⟩
    · intro _
      refine ⟨{ e with equipment_name := p.equipment_name.getD e.equipment_name,
                       is_active := p.is_active.getD e.is_active }, ?_, hid, rfl, rfl, rfl, rfl⟩
      rw [hfst, f4]
      unfold setEquipScalars
      simp only
      refine List.mem_map.mpr ⟨e, he, ?_⟩
      rw [if_pos (by simp [hid])]
    · intro e2 he2 hne
      rw [hfst, f4]
      unfold setEquipScalars
      simp only
      refine List.mem_map.mpr ⟨e2, he2, ?_⟩
      rw [if_neg (by simp [hne])]
  · have h1 : equipmentUpdate eid p s = (s, some err) := atomic_of_err _ s err hr
    refine ⟨?_, by rw [h1], by rw [h1], by rw [h1],
      ⟨[], by rw [h1]; simp⟩, ⟨[], by rw [h1]; simp⟩, ?_⟩
    · intro hnone
      rw [h1] at hnone
      simp at hnone
    · intro e2 he2 _
      rw [h1]
      exact he2

theorem c8_equipment_update_frame_witness :
    ((equipmentUpdate 1 ⟨some "MRI2", some false, [], []⟩ mriResultStore).2 = none →
      ∃ e1, e1 ∈ (equipmentUpdate 1 ⟨some "MRI2", some false, [], []⟩
          mriResultStore).1.equipments ∧
        e1.id = 1 ∧ e1.equipment_name = "MRI2" ∧ e1.is_active = false ∧
        e1.dep = 5 ∧ e1.is_deleted = false) ∧
    (equipmentUpdate 1 ⟨some "MRI2", some false, [], []⟩ mriResultStore).1.parameters
      = mriResultStore.parameters ∧
    (equipmentUpdate 1 ⟨some "MRI2", some false, [], []⟩ mriResultStore).1.clinics
      = mriResultStore.clinics ∧
    (equipmentUpdate 1 ⟨some "MRI2", some false, [], []⟩ mriResultStore).1.departments
      = mriResultStore.departments ∧
    (∃ t, (equipmentUpdate 1 ⟨some "MRI2", some false, [], []⟩ mriResultStore).1.details
      = mriResultStore.details ++ t) ∧
    (∃ t, (equipmentUpdate 1 ⟨some "MRI2", some false, [], []⟩ mriResultStore).1.values
      = mriResultStore.values ++ t) ∧
    (∀ e2 ∈ mriResultStore.equipments, e2.id ≠ 1 →
      e2 ∈ (equipmentUpdate 1 ⟨some "MRI2", some false, [], []⟩
        mriResultStore).1.equipments) :=
  c8_equipment_update_frame mriResultStore 1 ⟨some "MRI2", some false, [], []⟩
    ⟨1, 5, "MRI", true, false⟩ (by decide) rfl

theorem sdPred_iff (depId eqId : Nat) (e : Equipments) :
    ((e.id == eqId && e.dep == depId && !e.is_deleted) = true) ↔
      (e.id = eqId ∧ e.dep = depId ∧ e.is_deleted = false) := by
  simp [Bool.and_eq_true, and_assoc]

/-- C9: the equipment delete endpoint (PATCH, and DELETE which delegates
to it) returns 200 and sets `is_deleted := true`, `is_active := false`
exactly when an equipment with the given id exists under the given
department and is not already soft-deleted; otherwise — absent under that
department, or already soft-deleted — it returns 404 and changes
nothing. -/
theorem c9_soft_delete_endpoint (depId eqId : Nat) (s : Store) :
    ((∃ e, e ∈ s.equipments ∧ e.id = eqId ∧ e.dep = depId ∧ e.is_deleted = false) →
      (equipmentSoftDeleteView depId eqId s).2 = 200 ∧
      (∀ e ∈ s.equipments, e.id = eqId → e.dep = depId → e.is_deleted = false →
        { e with is_deleted := true, is_active := false }
          ∈ (equipmentSoftDeleteView depId eqId s).1.equipments) ∧
      (∀ e ∈ s.equipments, ¬(e.id = eqId ∧ e.dep = depId ∧ e.is_deleted = false) →
        e ∈ (equipmentSoftDeleteView depId eqId s).1.equipments)) ∧
    ((¬∃ e, e ∈ s.equipments ∧ e.id = eqId ∧ e.dep = depId ∧ e.is_deleted = false) →
      equipmentSoftDeleteView depId eqId s = (s, 404)) ∧
    equipmentSoftDeleteViaDelete depId eqId s = equipmentSoftDeleteView depId eqId s := by
  refine ⟨?_, ?_, rfl⟩
  · rintro ⟨e, he, h1, h2, h3⟩
    obtain ⟨y, hy⟩ := exists_find?_eq_some s.equipments
      (fun e => e.id == eqId && e.dep == depId && !e.is_deleted) e he
      ((sdPred_iff depId eqId e).mpr ⟨h1, h2, h3⟩)
    unfold equipmentSoftDeleteView
    rw [hy]
    refine ⟨rfl, ?_, ?_⟩
    · intro e4 he4 g1 g2 g3
      simp only
      refine List.mem_map.mpr ⟨e4, he4, ?_⟩
      rw [if_pos ((sdPred_iff depId eqId e4).mpr ⟨g1, g2, g3⟩)]
    · intro e4 he4 hno
      simp only
      refine List.mem_map.mpr ⟨e4, he4, ?_⟩
      rw [if_neg (fun hc => hno ((sdPred_iff depId eqId e4).mp hc))]
  · intro hne
    have hfind : s.equipments.find?
        (fun e => e.id == eqId && e.dep == depId && !e.is_deleted) = none := by
      apply List.find?_eq_none.mpr
      intro e he hc
      exact hne ⟨e, he, ((sdPred_iff depId eqId e).mp hc).1,
        ((sdPred_iff depId eqId e).mp hc).2.1, ((sdPred_iff depId eqId e).mp hc).2.2⟩
    unfold equipmentSoftDeleteView
    rw [hfind]

theorem c9_soft_delete_endpoint_witness :
    ((equipmentSoftDeleteView 2 1 delStore).2 = 200 ∧
      (∀ e ∈ delStore.equipments, e.id = 1 → e.dep = 2 → e.is_deleted = false →
        { e with is_deleted := true, is_active := false }
          ∈ (equipmentSoftDeleteView 2 1 delStore).1.equipments) ∧
      (∀ e ∈ delStore.equipments, ¬(e.id = 1 ∧ e.dep = 2 ∧ e.is_deleted = false) →
        e ∈ (equipmentSoftDeleteView 2 1 delStore).1.equipments)) ∧
    equipmentSoftDeleteView 2 1 delStoreDeleted = (delStoreDeleted, 404) := by
  constructor
  · exact (c9_soft_delete_endpoint 2 1 delStore).1
      ⟨⟨1, 2, "CT", true, false⟩, by decide, rfl, rfl, rfl⟩
  · exact (c9_soft_delete_endpoint 2 1 delStoreDeleted).2.1 (by decide)

/-- C10: the equipment inactive endpoint checks only id and department —
not the soft-delete flag: it returns 404 exactly when no equipment with
the given id exists under the given department, and for any matching row,
soft-deleted or not, it returns 200, sets `is_active := false` and leaves
`is_deleted` as it was (the record update touches no other field). -/
theorem c10_inactive_ignores_soft_delete (depId eqId : Nat) (s : Store) :
    ((¬∃ e, e ∈ s.equipments ∧ e.id = eqId ∧ e.dep = depId) →
      equipmentInactiveView depId eqId s = (s, 404)) ∧
    (∀ e ∈ s.equipments, e.id = eqId → e.dep = depId →
      (equipmentInactiveView depId eqId s).2 = 200 ∧
      { e with is_active := false } ∈ (equipmentInactiveView depId eqId s).1.equipments) := by
  constructor
  · intro hne
    have hfind : s.equipments.find? (fun e => e.id == eqId && e.dep == depId) = none := by
      apply List.find?_eq_none.mpr
      intro e he hc
      simp only [Bool.and_eq_true, beq_iff_eq] at hc
      exact hne ⟨e, he, hc.1, hc.2⟩
    unfold equipmentInactiveView
    rw [hfind]
  · intro e he h1 h2
    obtain ⟨y, hy⟩ := exists_find?_eq_some s.equipments
      (fun e => e.id == eqId && e.dep == depId) e he (by simp [h1, h2])
    unfold equipmentInactiveView
    rw [hy]
    refine ⟨rfl, ?_⟩
    simp only
    refine List.mem_map.mpr ⟨e, he, ?_⟩
    rw [if_pos (by simp [h1, h2])]

theorem c10_inactive_ignores_soft_delete_witness :
    equipmentInactiveView 2 9 delStoreDeleted = (delStoreDeleted, 404) ∧
    ((equipmentInactiveView 2 1 delStoreDeleted).2 = 200 ∧
      (⟨1, 2, "CT", false, true⟩ : Equipments)
        ∈ (equipmentInactiveView 2 1 delStoreDeleted).1.equipments) := by
  constructor
  · exact (c10_inactive_ignores_soft_delete 2 9 delStoreDeleted).1 (by decide)
  · exact (c10_inactive_ignores_soft_delete 2 1 delStoreDeleted).2
      ⟨1, 2, "CT", false, true⟩ (by decide) rfl rfl

/-- C7: in the read projection of a department, the equipments list holds
exactly the equipments of that department whose `is_deleted` flag is
false — the `is_active` flag plays no role in the filter (the equivalence
below holds whatever `is_active` is) — while the projected values of a
parameter include every ParameterValue row pointing at it, its own
`is_deleted` flag included (soft-deleted values are rendered, with their
flag). -/
theorem c7_read_projection (s : Store) (d : Department)
    (hnd : (s.equipments.map (fun e => e.id)).Nodup) :
    (∀ e ∈ s.equipments, e.dep = d.id →
      (e.is_deleted = false ↔
        ∃ er ∈ (projectDepartment s d).equipments, er.id = e.id)) ∧
    (∀ pr : Parameters, ∀ v ∈ s.values, v.parameter = pr.id →
      ∃ vr ∈ (projectParameter s pr).parameter_values,
        vr.id = v.id ∧ vr.is_deleted = v.is_deleted ∧ vr.content = v.content) := by
  constructor
  · intro e he hdep
    constructor
    · intro hdel
      refine ⟨projectEquipment s e, ?_, rfl⟩
      show projectEquipment s e ∈ getEquipmentsOfDepartment s d.id
      unfold getEquipmentsOfDepartment
      exact List.mem_map.mpr ⟨e, List.mem_filter.mpr ⟨he, by simp [hdep, hdel]⟩, rfl⟩
    · rintro ⟨er, hermem, herid⟩
      have hermem2 : er ∈ (s.equipments.filter
          (fun e => e.dep == d.id && !e.is_deleted)).map (projectEquipment s) := hermem
      obtain ⟨e2, he2mem, he2eq⟩ := List.mem_map.mp hermem2
      have he2f := (List.mem_filter.mp he2mem).2
      simp only [Bool.and_eq_true, beq_iff_eq, Bool.not_eq_eq_eq_not, Bool.not_true] at he2f
      have hid2 : e2.id = e.id := by
        have : (projectEquipment s e2).id = e2.id := rfl
        rw [← he2eq] at herid
        rw [this] at herid
        exact herid
      have := List.inj_on_of_nodup_map hnd (List.mem_filter.mp he2mem).1 he hid2
      rw [← this]
      exact he2f.2
  · intro pr v hv hvp
    refine ⟨⟨v.id, v.content, v.is_deleted⟩, ?_, rfl, rfl, rfl⟩
    show (⟨v.id, v.content, v.is_deleted⟩ : ParameterValueRead) ∈ projectValues s pr.id
    unfold projectValues
    exact List.mem_map.mpr ⟨v, List.mem_filter.mpr ⟨hv, by simp [hvp]⟩, rfl⟩

theorem c7_read_projection_witness :
    ((⟨2, 1, "CT", false, false⟩ : Equipments).is_deleted = false ↔
      ∃ er ∈ (projectDepartment projStore ⟨1, 9, "Radiology", true⟩).equipments,
        er.id = 2) ∧
    ((⟨3, 1, "MR", true, true⟩ : Equipments).is_deleted = false ↔
      ∃ er ∈ (projectDepartment projStore ⟨1, 9, "Radiology", true⟩).equipments,
        er.id = 3) ∧
    (∃ vr ∈ (projectParameter projStore ⟨4, 2, "Voltage", true⟩).parameter_values,
      vr.id = 5 ∧ vr.is_deleted = true ∧ vr.content = [("a", "1")]) := by
  refine ⟨?_, ?_, ?_⟩
  · exact (c7_read_projection projStore ⟨1, 9, "Radiology", true⟩ (by decide)).1
      ⟨2, 1, "CT", false, false⟩ (by decide) rfl
  · exact (c7_read_projection projStore ⟨1, 9, "Radiology", true⟩ (by decide)).1
      ⟨3, 1, "MR", true, true⟩ (by decide) rfl
  · exact (c7_read_projection projStore ⟨1, 9, "Radiology", true⟩ (by decide)).2
      ⟨4, 2, "Voltage", true⟩ ⟨5, 4, [("a", "1")], true⟩ (by decide) rfl

/-- C6 (counterexample): the claim says the 201 response to the MRI
scenario contains 1 parameter and 1 parameter value with content
`unit: rpm`.  The code's echo is `EquipmentSerializer(equipment).data`,
whose declared `parameters` / `equipment_details` fields do not match the
model's reverse accessors (`parameters_set` / `equipmentdetails_set`);
DRF's `Field.get_attribute` therefore hits an `AttributeError` and, both
fields being `required=False` with no default, raises `SkipField`, so the
rendered body omits both keys (`none` in the embedding).  The status is
201 and the store does hold the parameter (id 4) with exactly one value —
but the response body carries no parameter list at all. -/
theorem c6_echo_counterexample :
    (postEquipmentView 2 mriPayload c6Store).2.status = 201 ∧
    (postEquipmentView 2 mriPayload c6Store).2.body =
      some ⟨3, "MRI", true, none, none⟩ ∧
    countValuesFor (postEquipmentView 2 mriPayload c6Store).1 4 = 1 := by
  refine ⟨by decide, by decide, by decide⟩

/-- C6 (amended): POST of a valid equipment write document under an
existing department returns 201; the echoed body carries the scalar
fields of the created equipment but omits the nested `equipment_details`
and `parameters` keys (DRF skips them because the write serializer's
field names do not match the model's reverse accessors and both fields
are `required=False`); in the MRI scenario the created rows live in the
store: 1 Parameter and 1 ParameterValue whose content is `unit: rpm`. -/
theorem c6_post_equipment_amended :
    (∀ depId p s, (∃ dd ∈ s.departments, dd.id = depId) →
      (equipmentCreate depId p s).2 = none →
      (postEquipmentView depId p s).2.status = 201 ∧
      ∃ b, (postEquipmentView depId p s).2.body = some b ∧
        b.equipment_details = none ∧ b.parameters = none) ∧
    ((postEquipmentView 2 mriPayload c6Store).2.status = 201 ∧
      (postEquipmentView 2 mriPayload c6Store).1.parameters =
        c6Store.parameters ++ [⟨4, 3, "Speed", true⟩] ∧
      (postEquipmentView 2 mriPayload c6Store).1.values =
        c6Store.values ++ [⟨5, 4, [("unit", "rpm")], false⟩]) := by
  constructor
  · intro depId p s hdep hok
    obtain ⟨dd, hdd, hddid⟩ := hdep
    obtain ⟨y, hy⟩ := exists_find?_eq_some s.departments
      (fun d => d.id == depId) dd hdd (by simp [hddid])
    unfold postEquipmentView
    rw [hy]
    rcases hc : equipmentCreate depId p s with ⟨s1, err⟩
    have herr : err = none := by
      rw [hc] at hok
      exact hok
    subst herr
    refine ⟨rfl, ?_⟩
    have hraw := atomic_of_ok _ _ _ hc
    have hEq : s1.equipments = s.equipments ++
        [⟨s.nextId, depId, p.equipment_name, p.is_active.getD true, false⟩] := by
      have h1 : (equipmentCreateRaw depId p s).1.equipments = s.equipments ++
          [⟨s.nextId, depId, p.equipment_name, p.is_active.getD true, false⟩] := by
        unfold equipmentCreateRaw
        rw [(createParameters_frame ..).2.2.1, (createDetails_frame ..).2.2.1]
        rfl
      rw [hraw] at h1
      exact h1
    obtain ⟨b, hb⟩ := exists_find?_eq_some s1.equipments (fun e => e.id == s.nextId)
      (⟨s.nextId, depId, p.equipment_name, p.is_active.getD true, false⟩ : Equipments)
      (by rw [hEq]; exact List.mem_append_right _ (List.mem_cons_self _ _)) (by simp)
    refine ⟨⟨b.id, b.equipment_name, b.is_active, none, none⟩, ?_, rfl, rfl⟩
    show equipmentWriteEcho s1 s.nextId = some _
    unfold equipmentWriteEcho
    rw [hb]
  · exact ⟨by decide, by decide, by decide⟩

theorem c6_post_equipment_amended_witness :
    (postEquipmentView 2 mriPayload c6Store).2.status = 201 ∧
    ∃ b, (postEquipmentView 2 mriPayload c6Store).2.body = some b ∧
      b.equipment_details = none ∧ b.parameters = none :=
  c6_post_equipment_amended.1 2 mriPayload c6Store
    ⟨⟨2, 1, "Radiology", true⟩, by decide, rfl⟩ (by decide)

end QualityControl
